import Mathlib

/-! Verification of the Google Maps scraper's extraction engine and collection
orchestrator (gmaps_scraper_server/extractor.py and scraper.py).

The Python source is shallowly embedded: each extraction function becomes a
total Lean function over strings / JSON values, with Python exceptions
modelled as `Option` results at exactly the points where the source can
raise.  Python machine-level details that cannot affect the claims are
modelled as follows: JSON numbers are rationals, `str` methods and the
regex character classes are modelled over their ASCII behaviour (all the
string constants in the source are ASCII).
-/

set_option maxRecDepth 1000000

namespace GMapsScraper

/-- Characters that must not appear literally in this file are built by code. -/
def lbrace : Char := Char.ofNat 123

def rbrace : Char := Char.ofNat 125

def squote : Char := Char.ofNat 39

/-! Section: Python string helpers -/

/-- Python `\s` / `str.strip()` whitespace (ASCII fragment). -/
def pyIsSpace (c : Char) : Bool :=
  c = ' ' || c = '\t' || c = '\n' || c = '\r' || c = '\x0b' || c = '\x0c'

def dropLeadingWhile (p : Char → Bool) : List Char → List Char
  | [] => []
  | c :: r => if p c then dropLeadingWhile p r else c :: r

/-- Python `str.strip()` on a char list. -/
def pyStripL (l : List Char) : List Char :=
  ((dropLeadingWhile pyIsSpace ((dropLeadingWhile pyIsSpace l).reverse)).reverse)

def pyStrip (s : String) : String := String.mk (pyStripL s.data)

/-- Python `str.lstrip('\n')`. -/
def pyLstripNlL (l : List Char) : List Char := dropLeadingWhile (fun c => c = '\n') l

def pyLstripNl (s : String) : String := String.mk (pyLstripNlL s.data)

/-- Python `str.startswith(prefix)` on char lists. -/
def pyStartsWithL : List Char → List Char → Bool
  | _, [] => true
  | [], _ :: _ => false
  | c :: r, p :: ps => c = p && pyStartsWithL r ps

def pyStartsWith (s p : String) : Bool := pyStartsWithL s.data p.data

/-- Python `needle in hay` for strings. -/
def hasSubL : List Char → List Char → Bool
  | [], needle => needle.isEmpty
  | c :: r, needle => pyStartsWithL (c :: r) needle || hasSubL r needle

def hasSub (hay needle : String) : Bool := hasSubL hay.data needle.data

/-- Index (in chars) of the first occurrence of `needle`, if any. -/
def findSubL : List Char → List Char → Option Nat
  | [], needle => if needle.isEmpty then some 0 else none
  | c :: r, needle =>
    if pyStartsWithL (c :: r) needle then some 0
    else (findSubL r needle).map (· + 1)

/-- Python `s.split(sep, 1)[1]`: everything after the first occurrence of `sep`.
Caller guarantees the occurrence exists (the source guards with `in`). -/
def pySplitOnceAfterL (l sep : List Char) : List Char :=
  match findSubL l sep with
  | some i => l.drop (i + sep.length)
  | none => l

/-- Python `str.lower()` (ASCII fragment; all keywords in the source are ASCII). -/
def pyLower (s : String) : String := String.mk (s.data.map Char.toLower)

/-- Python `int(...)` on a digits-only string: errors (None) when empty or non-digit. -/
def pyIntOfDigits (l : List Char) : Option Int :=
  if l ≠ [] && l.all Char.isDigit then
    some (Int.ofNat (l.foldl (fun a c => a * 10 + (c.toNat - 48)) 0))
  else none

/-- Python `float(...)` on a string drawn from the `[\d.]+` alphabet: at most one dot
and at least one digit, else ValueError (None). The value `int.frac` is
built as the exact rational (int*10^k + frac) / 10^k. -/
def pyFloatOfDigitsDots (l : List Char) : Option Rat :=
  if l.all (fun c => c.isDigit || c = '.') &&
     (l.filter (fun c => c = '.')).length ≤ 1 &&
     (l.filter Char.isDigit).length ≥ 1 then
    let intPart := l.takeWhile (fun c => c ≠ '.')
    let fracPart := (l.dropWhile (fun c => c ≠ '.')).drop 1
    let iv : Nat := intPart.foldl (fun a c => a * 10 + (c.toNat - 48)) 0
    let fv : Nat := fracPart.foldl (fun a c => a * 10 + (c.toNat - 48)) 0
    some (mkRat (Int.ofNat (iv * 10 ^ fracPart.length + fv)) (10 ^ fracPart.length))
  else none

/-! Section: JSON values (output of `json.loads`) -/

inductive JValue where
  | null : JValue
  | bool : Bool → JValue
  | num : Rat → JValue
  | str : String → JValue
  | arr : List JValue → JValue
  | obj : List (String × JValue) → JValue

/-- Python truthiness of a parsed JSON value. -/
def jTruthy : JValue → Bool
  | .null => false
  | .bool b => b
  | .num q => q ≠ 0
  | .str s => s ≠ ""
  | .arr l => !l.isEmpty
  | .obj l => !l.isEmpty

/-- Truthiness of a variable that may hold Python `None` (`Option.none`). -/
def jTruthyO : Option JValue → Bool
  | none => false
  | some v => jTruthy v

/-- Python `isinstance(x, (int, float))`: in Python `bool` is a subclass of `int`,
so `True`/`False` also pass this check. -/
def jIsNumPy : JValue → Bool
  | .num _ => true
  | .bool _ => true
  | _ => false

def jIsStr : JValue → Bool
  | .str _ => true
  | _ => false

def jIsArr : JValue → Bool
  | .arr _ => true
  | _ => false

def jStrVal : JValue → String
  | .str s => s
  | _ => ""

/-! Section: A JSON parser modelling `json.loads`
(strict mode: control characters rejected inside strings, standard number
grammar; the nonstandard `NaN`/`Infinity` literals accepted by Python are
not modelled). Fuel-based recursion; fuel is sized generously by callers. -/

def jsonWs (c : Char) : Bool := c = ' ' || c = '\t' || c = '\n' || c = '\r'

def skipWs : List Char → List Char
  | [] => []
  | c :: r => if jsonWs c then skipWs r else c :: r

def hexVal (c : Char) : Option Nat :=
  if c.isDigit then some (c.toNat - 48)
  else if 'a' ≤ c && c ≤ 'f' then some (c.toNat - 87)
  else if 'A' ≤ c && c ≤ 'F' then some (c.toNat - 55)
  else none

/-- Parse the body of a JSON string (after the opening quote). -/
def parseStrChars : Nat → List Char → Option (List Char × List Char)
  | 0, _ => none
  | _ + 1, [] => none
  | fuel + 1, c :: r =>
    if c = '"' then some ([], r)
    else if c = '\\' then
      match r with
      | [] => none
      | e :: r2 =>
        let cont (ch : Char) (rest : List Char) : Option (List Char × List Char) :=
          (parseStrChars fuel rest).map (fun p => (ch :: p.1, p.2))
        if e = '"' then cont '"' r2
        else if e = '\\' then cont '\\' r2
        else if e = '/' then cont '/' r2
        else if e = 'b' then cont '\x08' r2
        else if e = 'f' then cont '\x0c' r2
        else if e = 'n' then cont '\n' r2
        else if e = 'r' then cont '\r' r2
        else if e = 't' then cont '\t' r2
        else if e = 'u' then
          match r2 with
          | a :: b :: cc :: d :: r3 =>
            match hexVal a, hexVal b, hexVal cc, hexVal d with
            | some ha, some hb, some hc, some hd =>
              cont (Char.ofNat (((ha * 16 + hb) * 16 + hc) * 16 + hd)) r3
            | _, _, _, _ => none
          | _ => none
        else none
    else if c.toNat < 32 then none
    else (parseStrChars fuel r).map (fun p => (c :: p.1, p.2))

def takeDigits : List Char → List Char × List Char
  | [] => ([], [])
  | c :: r =>
    if c.isDigit then
      let p := takeDigits r
      (c :: p.1, p.2)
    else ([], c :: r)

def digitsNat (l : List Char) : Nat := l.foldl (fun a c => a * 10 + (c.toNat - 48)) 0

/-- Parse a JSON number starting at the head of the list. -/
def parseNum (l : List Char) : Option (Rat × List Char) :=
  let (neg, l1) : Bool × List Char :=
    match l with
    | '-' :: r => (true, r)
    | _ => (false, l)
  let (ip, l2) := takeDigits l1
  if ip = [] then none
  else if ip.length > 1 && ip.headI = '0' then none
  else
    let (fp, l3) : List Char × List Char :=
      match l2 with
      | '.' :: r => takeDigits r
      | _ => ([], l2)
    let hadDot : Bool := match l2 with | '.' :: _ => true | _ => false
    if hadDot && fp = [] then none
    else
      let (expOk, ev, l4) : Bool × Int × List Char :=
        match l3 with
        | 'e' :: r | 'E' :: r =>
          let (esign, r1) : Int × List Char :=
            match r with
            | '-' :: rr => (-1, rr)
            | '+' :: rr => (1, rr)
            | _ => (1, r)
          let (ed, r2) := takeDigits r1
          if ed = [] then (false, 0, l3) else (true, esign * (digitsNat ed : Int), r2)
        | _ => (true, 0, l3)
      if !expOk then none
      else
        let fl := fp.length
        let mNat : Nat := digitsNat ip * 10 ^ fl + digitsNat fp
        let numN : Nat := if 0 ≤ ev then mNat * 10 ^ ev.toNat else mNat
        let denN : Nat := if 0 ≤ ev then 10 ^ fl else 10 ^ (fl + (-ev).toNat)
        let base : Rat := mkRat (Int.ofNat numN) denN
        some (if neg then -base else base, l4)

def expectLits : List Char → List Char → Option (List Char)
  | l, [] => some l
  | [], _ :: _ => none
  | c :: r, p :: ps => if c = p then expectLits r ps else none

mutual

def parseVal : Nat → List Char → Option (JValue × List Char)
  | 0, _ => none
  | fuel + 1, s =>
    match skipWs s with
    | [] => none
    | c :: r =>
      if c = '[' then
        match skipWs r with
        | ']' :: r1 => some (.arr [], r1)
        | s1 => (parseElems fuel s1).map (fun p => (.arr p.1, p.2))
      else if c = lbrace then
        match skipWs r with
        | q :: r1 =>
          if q = rbrace then some (.obj [], r1)
          else (parseMembers fuel (q :: r1)).map (fun p => (.obj p.1, p.2))
        | [] => none
      else if c = '"' then
        (parseStrChars (r.length + 1) r).map (fun p => (.str (String.mk p.1), p.2))
      else if c = 't' then
        (expectLits r ['r', 'u', 'e']).map (fun r1 => (.bool true, r1))
      else if c = 'f' then
        (expectLits r ['a', 'l', 's', 'e']).map (fun r1 => (.bool false, r1))
      else if c = 'n' then
        (expectLits r ['u', 'l', 'l']).map (fun r1 => (.null, r1))
      else if c.isDigit || c = '-' then
        (parseNum (c :: r)).map (fun p => (.num p.1, p.2))
      else none
termination_by structural fuel _ => fuel

def parseElems : Nat → List Char → Option (List JValue × List Char)
  | 0, _ => none
  | fuel + 1, s => do
    let (v, r) ← parseVal fuel s
    match skipWs r with
    | ',' :: r1 =>
      let (vs, r2) ← parseElems fuel r1
      pure (v :: vs, r2)
    | ']' :: r1 => pure ([v], r1)
    | _ => none
termination_by structural fuel _ => fuel

def parseMembers : Nat → List Char → Option (List (String × JValue) × List Char)
  | 0, _ => none
  | fuel + 1, s =>
    match skipWs s with
    | '"' :: r => do
      let (k, r1) ← parseStrChars (r.length + 1) r
      match skipWs r1 with
      | ':' :: r2 =>
        let (v, r3) ← parseVal fuel r2
        match skipWs r3 with
        | ',' :: r4 =>
          let (ms, r5) ← parseMembers fuel r4
          pure ((String.mk k, v) :: ms, r5)
        | c :: r4 =>
          if c = rbrace then pure ([(String.mk k, v)], r4) else none
        | [] => none
      | _ => none
    | _ => none
termination_by structural fuel _ => fuel

end

/-- Python `json.loads`: whole input must be consumed (up to trailing whitespace). -/
def pyJsonLoads (s : String) : Option JValue :=
  match parseVal (2 * s.data.length + 8) s.data with
  | some (v, rest) => if (skipWs rest).isEmpty then some v else none
  | none => none

/-! Section: A small backtracking regex engine
Covers exactly the constructs appearing in the source's patterns: literal
characters, single-character classes, greedy and lazy star over a class,
a greedy optional literal, and a greedy bounded repetition of a class.
`re.search` semantics: the leftmost starting position wins; within one
starting position alternatives are explored in backtracking priority order
(greedy = longest first, lazy = shortest first). Each pattern has at most
one capturing group, represented by splitting the pattern into the items
before the group, the group items, and the items after it. -/

inductive RItem where
  | lit : Char → RItem
  | cls : (Char → Bool) → RItem
  | star : (Char → Bool) → Bool → RItem   -- predicate, lazy?
  | opt : Char → RItem                     -- greedy `c?`
  | repRange : (Char → Bool) → Nat → Nat → RItem  -- greedy `p{lo,hi}`

/-- Suffixes reachable by consuming a (possibly empty) run of `p`,
shortest first (lazy priority order). -/
def starSplits (p : Char → Bool) : List Char → List (List Char)
  | [] => [[]]
  | c :: r => (c :: r) :: (if p c then starSplits p r else [])

/-- The suffixes reachable by matching one item, in priority order. -/
def itemAlts : RItem → List Char → List (List Char)
  | .lit c, s =>
    match s with
    | c' :: r => if c' = c then [r] else []
    | [] => []
  | .cls p, s =>
    match s with
    | c' :: r => if p c' then [r] else []
    | [] => []
  | .star p lazyQ, s =>
    let sp := starSplits p s
    if lazyQ then sp else sp.reverse
  | .opt c, s =>
    match s with
    | c' :: r => if c' = c then [r, c' :: r] else [c' :: r]
    | [] => [[]]
  | .repRange p lo hi, s =>
    let sp := starSplits p s    -- index k = suffix after consuming k chars
    ((sp.take (hi + 1)).drop lo).reverse

/-- All ways to match a sequence of items, in backtracking priority order;
each result is the remaining suffix. -/
def seqMatch : List RItem → List Char → List (List Char)
  | [], s => [s]
  | i :: rest, s => (itemAlts i s).flatMap (seqMatch rest)

/-- A pattern with at most one capturing group. -/
structure RPat where
  pre : List RItem
  grp : List RItem
  post : List RItem

/-- Match `pat` anchored at the head of `s`; on success return the text
captured by the group and the suffix after the whole match (first match in
backtracking priority order). -/
def searchHere (pat : RPat) (s : List Char) : Option (List Char × List Char) :=
  ((seqMatch pat.pre s).flatMap (fun s1 =>
    (seqMatch pat.grp s1).flatMap (fun s2 =>
      (seqMatch pat.post s2).map (fun s3 =>
        (s1.take (s1.length - s2.length), s3))))).head?

/-- Python `re.search`: scan start positions left to right. -/
def reSearchGo : Nat → RPat → List Char → Option (List Char × List Char)
  | 0, _, _ => none
  | fuel + 1, pat, s =>
    match searchHere pat s with
    | some r => some r
    | none =>
      match s with
      | [] => none
      | _ :: t => reSearchGo fuel pat t

/-- Python `re.search(...).group(1)`. -/
def reSearchGroup (pat : RPat) (s : List Char) : Option (List Char) :=
  (reSearchGo (s.length + 1) pat s).map (·.1)

/-- Python `re.search(...)`: the suffix of `s` after the end of the first match
(from which `match.end()` positions are recovered). -/
def reSearchRest (pat : RPat) (s : List Char) : Option (List Char) :=
  (reSearchGo (s.length + 1) pat s).map (·.2)

/-- Python `re.sub(pattern, '', s)`: delete leftmost non-overlapping matches.
(The source's patterns cannot match the empty string; an empty match is
skipped over to keep the recursion on fuel well-behaved.) -/
def reSubGo : Nat → List RItem → List Char → List Char
  | 0, _, s => s
  | fuel + 1, items, s =>
    match s with
    | [] => []
    | c :: t =>
      match (seqMatch items s).head? with
      | some rest =>
        if rest.length < s.length then reSubGo fuel items rest
        else c :: reSubGo fuel items t
      | none => c :: reSubGo fuel items t

def reSub (items : List RItem) (s : List Char) : List Char :=
  reSubGo (s.length + 1) items s

/-- Python `re.findall` with one capturing group: leftmost non-overlapping matches,
collecting the group text of each. -/
def reFindAllGo : Nat → RPat → List Char → List (List Char)
  | 0, _, _ => []
  | fuel + 1, pat, s =>
    match s with
    | [] => []
    | _ :: t =>
      match searchHere pat s with
      | some (cap, rest) =>
        if rest.length < s.length then cap :: reFindAllGo fuel pat rest
        else cap :: reFindAllGo fuel pat t
      | none => reFindAllGo fuel pat t

def reFindAll (pat : RPat) (s : List Char) : List (List Char) :=
  reFindAllGo (s.length + 1) pat s

/-- Python `re.match(r'^[...]+$', text)` as used in the source: the whole text (or
the text minus one trailing newline, since `$` also matches just before a
final newline) is a nonempty run of class characters. -/
def pyMatchFullPlus (p : Char → Bool) (s : List Char) : Bool :=
  (decide (s ≠ []) && s.all p) ||
  (match s.reverse with
   | '\n' :: r => decide (r ≠ []) && r.all p
   | _ => false)

/-- Literal items for an ASCII string. -/
def lits (s : String) : List RItem := s.data.map RItem.lit

/-! Section: character classes used by the source's patterns (ASCII behaviour). -/

def clsDigit (c : Char) : Bool := c.isDigit

def clsDigitDot (c : Char) : Bool := c.isDigit || c = '.'

def clsDigitComma (c : Char) : Bool := c.isDigit || c = ','

def clsWord (c : Char) : Bool := c.isAlphanum || c = '_'

def clsWordDotDash (c : Char) : Bool := clsWord c || c = '.' || c = '-'

def clsNotGt (c : Char) : Bool := c ≠ '>'

def clsNotLt (c : Char) : Bool := c ≠ '<'

def clsNotQuote (c : Char) : Bool := c ≠ '"'

def clsAny (_ : Char) : Bool := true        -- `.` under re.DOTALL

def clsAnyNoNl (c : Char) : Bool := c ≠ '\n' -- `.` without re.DOTALL

def clsNoiseChars (c : Char) : Bool :=
  c.isDigit || c = '.' || c = ',' || c = '(' || c = ')'

/-! Section: extractor.py — `_extract_from_app_init_state` and the legacy blob -/

/-- The per-source field set accumulated by `_extract_from_app_init_state`
(the Python `result` dict). Values come from parsed JSON, so they are
arbitrary `JValue`s; `address` is stored as a joined string. -/
structure InitResult where
  place_id : Option JValue := none
  name : Option JValue := none
  coordinates : Option JValue := none
  rating : Option JValue := none
  reviews_count : Option JValue := none
  website : Option JValue := none
  address : Option JValue := none
  categories : Option JValue := none

def emptyInit : InitResult := {}

/-- Python `not result` on the Python dict: true when no key has been set. -/
def initIsEmpty (r : InitResult) : Bool :=
  r.place_id.isNone && r.name.isNone && r.coordinates.isNone && r.rating.isNone &&
  r.reviews_count.isNone && r.website.isNone && r.address.isNone && r.categories.isNone

/-- Python `dict.setdefault(key, v)`: only writes when the key is absent. -/
def sdflt (cur : Option JValue) (v : JValue) : Option JValue :=
  match cur with
  | none => some v
  | some w => some w

/-- Python `index in range ∧ fetch` helper: `l[i]` guarded by `len(l) > i`. -/
def jGet (l : List JValue) (i : Nat) : Option JValue := l.get? i

/-- Python `{"latitude": lat, "longitude": lng}`. -/
def mkCoords (lat lng : JValue) : JValue :=
  .obj [("latitude", lat), ("longitude", lng)]

/-- Python `if len(blob) > 11 and blob[11]: result.setdefault('name', blob[11])` -/
def legacyStepName (blob : List JValue) (r : InitResult) : InitResult :=
  match jGet blob 11 with
  | some v => if jTruthy v then { r with name := sdflt r.name v } else r
  | none => r

/-- Python `if len(blob) > 10 and blob[10]: result.setdefault('place_id', blob[10])` -/
def legacyStepPid (blob : List JValue) (r : InitResult) : InitResult :=
  match jGet blob 10 with
  | some v => if jTruthy v then { r with place_id := sdflt r.place_id v } else r
  | none => r

/-- Legacy coordinates: `blob[9]` a list of length > 3 whose elements 2,3 are
numeric (Python `isinstance(x, (int, float))`, which also admits bools). -/
def legacyStepCoords (blob : List JValue) (r : InitResult) : InitResult :=
  match jGet blob 9 with
  | some (.arr l9) =>
    if l9.length > 3 then
      match jGet l9 2, jGet l9 3 with
      | some lat, some lng =>
        if jIsNumPy lat && jIsNumPy lng then
          { r with coordinates := sdflt r.coordinates (mkCoords lat lng) }
        else r
      | _, _ => r
    else r
  | _ => r

/-- Python `if len(blob[4]) > 7 and blob[4][7]: result.setdefault('rating', ...)` -/
def legacyStepRating (l4 : List JValue) (r : InitResult) : InitResult :=
  match jGet l4 7 with
  | some v => if jTruthy v then { r with rating := sdflt r.rating v } else r
  | none => r

/-- Python `if len(blob[4]) > 8 and blob[4][8]: result.setdefault('reviews_count', ...)` -/
def legacyStepReviews (l4 : List JValue) (r : InitResult) : InitResult :=
  match jGet l4 8 with
  | some v => if jTruthy v then { r with reviews_count := sdflt r.reviews_count v } else r
  | none => r

/-- Python `blob[4]` a list: rating at index 7 and reviews count at index 8,
each kept only when truthy. -/
def legacyStepRate (blob : List JValue) (r : InitResult) : InitResult :=
  match jGet blob 4 with
  | some (.arr l4) => legacyStepReviews l4 (legacyStepRating l4 r)
  | _ => r

/-- Python `if len(blob) > 7 and isinstance(blob[7], list) and blob[7]:
result.setdefault('website', blob[7][0])` -/
def legacyStepSite (blob : List JValue) (r : InitResult) : InitResult :=
  match jGet blob 7 with
  | some (.arr l7) =>
    match l7.head? with
    | some v => { r with website := sdflt r.website v }
    | none => r
  | _ => r

/-- Address step: `", ".join(filter(None, blob[2]))`. The join raises
`TypeError` when a truthy element is not a string; inside the source's
`try` block that aborts the remaining statements of `_extract_legacy_blob`
(the returned Bool is false on abort). -/
def legacyStepAddr (blob : List JValue) (r : InitResult) : InitResult × Bool :=
  match jGet blob 2 with
  | some (.arr l2) =>
    let kept := l2.filter jTruthy
    if kept.all jIsStr then
      let addr := String.intercalate (", ") (kept.map jStrVal)
      (if addr ≠ "" then { r with address := sdflt r.address (.str addr) } else r, true)
    else (r, false)
  | some _ => (r, true)
  | none => (r, true)

/-- Python `if len(blob) > 13 and blob[13]: result.setdefault('categories', blob[13])` -/
def legacyStepCats (blob : List JValue) (r : InitResult) : InitResult :=
  match jGet blob 13 with
  | some v => if jTruthy v then { r with categories := sdflt r.categories v } else r
  | none => r

/-- Python `_extract_legacy_blob`: positional extraction from the legacy `[3][6]`
list; a mid-way `TypeError` (only possible in the address join) is caught by
the surrounding `except`, keeping the fields set so far. -/
def extractLegacyBlob (blob : List JValue) (r0 : InitResult) : InitResult :=
  let r := legacyStepName blob r0
  let r := legacyStepPid blob r
  let r := legacyStepCoords blob r
  let r := legacyStepRate blob r
  let r := legacyStepSite blob r
  match legacyStepAddr blob r with
  | (r', true) => legacyStepCats blob r'
  | (r', false) => r'

/-- The `)]\x27` framing prefix stripped by `_try_parse_legacy_string`
(the four characters `)`, `]`, closing brace, apostrophe). -/
def legacyPrefix : String := String.mk [')', ']', rbrace, squote]

/-- The two-character separator `)\x27` the source splits on. -/
def splitSep : String := String.mk [')', squote]

/-- The prefix-stripping part of `_try_parse_legacy_string`: strip the
framing prefix (via `split(")\x27", 1)[1]` when that two-character
sequence occurs anywhere, else by slicing off four characters), then
`lstrip('\n')` and `strip()`. -/
def legacyInnerStr (blobStr : String) : List Char :=
  pyStripL
    (if pyStartsWithL blobStr.data legacyPrefix.data then
      pyLstripNlL
        (if hasSubL blobStr.data splitSep.data then
          pySplitOnceAfterL blobStr.data splitSep.data
         else blobStr.data.drop 4)
     else blobStr.data)

/-- Python `_try_parse_legacy_string`: strip the framing prefix, JSON-decode, and
feed `parsed[6]` to the legacy blob extractor; any failure leaves `result`
unchanged. -/
def tryParseLegacyString (blobStr : String) (r : InitResult) : InitResult :=
  let inner2 := legacyInnerStr blobStr
  if pyStartsWithL inner2 ['['] || pyStartsWithL inner2 [lbrace] then
    match pyJsonLoads (String.mk inner2) with
    | some (.arr parsed) =>
      (match jGet parsed 6 with
       | some (.arr blob) => extractLegacyBlob blob r
       | _ => r)
    | _ => r
  else r

/-- The anchor pattern
`;window\.APP_INITIALIZATION_STATE\s*=\s*(.*?);window\.APP_FLAGS` (DOTALL). -/
def appInitPat : RPat :=
  { pre := lits (";window.APP_INITIALIZATION_STATE") ++
      [.star pyIsSpace false, .lit '=', .star pyIsSpace false]
    grp := [.star clsAny true]
    post := lits (";window.APP_FLAGS") }

/-- Schema A (2025+): place data at `[5][3][2]`; `place_id` from position 0
(when the record has length > 1 and position 0 is a string), coordinates
from positions 2,3 of the 4+-element list at position 7. -/
def schemaA (v : JValue) (r : InitResult) : InitResult :=
  match v with
  | .arr l0 =>
    match jGet l0 5 with
    | some (.arr l5) =>
      match jGet l5 3 with
      | some (.arr l53) =>
        match jGet l53 2 with
        | some (.arr data) =>
          let r1 :=
            if data.length > 1 then
              match jGet data 0 with
              | some (.str s) => { r with place_id := some (.str s) }
              | _ => r
            else r
          (match jGet data 7 with
           | some (.arr d7) =>
             if d7.length > 3 then
               match jGet d7 2, jGet d7 3 with
               | some lat, some lng =>
                 if jIsNumPy lat && jIsNumPy lng then
                   { r1 with coordinates := some (mkCoords lat lng) }
                 else r1
               | _, _ => r1
             else r1
           | _ => r1)
        | _ => r
      | _ => r
    | _ => r
  | _ => r

/-- Legacy structure: place data at `[3][6]`, a list or a framed string. -/
def legacyPart (v : JValue) (r : InitResult) : InitResult :=
  match v with
  | .arr l0 =>
    match jGet l0 3 with
    | some (.arr l3) =>
      match jGet l3 6 with
      | some (.arr blob) => extractLegacyBlob blob r
      | some (.str s) => tryParseLegacyString s r
      | _ => r
    | _ => r
  | _ => r

/-- Python `_extract_from_app_init_state`: locate the embedded JSON between the two
anchors, parse it, then try schema A and (when that produced nothing) the
legacy schema. Any parse failure returns the (empty) field set; the
source's blanket `except` means no exception escapes. -/
def extractFromAppInitState (html : String) : InitResult :=
  match reSearchGroup appInitPat html.data with
  | none => emptyInit
  | some g =>
    let jsonStr := pyStripL g
    if pyStartsWithL jsonStr ['['] || pyStartsWithL jsonStr [lbrace] then
      match pyJsonLoads (String.mk jsonStr) with
      | none => emptyInit
      | some v =>
        let r1 := schemaA v emptyInit
        if initIsEmpty r1 then legacyPart v r1 else r1
    else emptyInit

/-! Section: extractor.py — rendered-HTML extractors -/

/-- Python `<h1[^>]*>(.*?)</h1>` (DOTALL). -/
def h1Pat : RPat :=
  { pre := lits ("<h1") ++ [.star clsNotGt false, .lit '>']
    grp := [.star clsAny true]
    post := lits ("</h1>") }

/-- Python `<[^>]+>` (used to strip nested tags from the h1 text). -/
def tagItems : List RItem := [.lit '<', .cls clsNotGt, .star clsNotGt false, .lit '>']

/-- Python `_extract_name`: text of the first h1, nested markup stripped. -/
def extractName (html : String) : Option String :=
  match reSearchGroup h1Pat html.data with
  | some g =>
    let name := pyStripL (reSub tagItems g)
    if name ≠ [] then some (String.mk name) else none
  | none => none

/-- Python `class="fontDisplayMedium">([\d.]+)</div>`. -/
def ratingPat : RPat :=
  { pre := lits ("class=\"fontDisplayMedium\">")
    grp := [.cls clsDigitDot, .star clsDigitDot false]
    post := lits ("</div>") }

/-- Python `_extract_rating`: `float(...)` of the capture; None on ValueError. -/
def extractRating (html : String) : Option Rat :=
  match reSearchGroup ratingPat html.data with
  | some g => pyFloatOfDigitsDots g
  | none => none

/-- Python `fontDisplayMedium">[\d.]+<.*?>([\d,]+)\s+reviews?` (DOTALL). -/
def reviewsPat : RPat :=
  { pre := lits ("fontDisplayMedium\">") ++
      [.cls clsDigitDot, .star clsDigitDot false, .lit '<', .star clsAny true, .lit '>']
    grp := [.cls clsDigitComma, .star clsDigitComma false]
    post := [.cls pyIsSpace, .star pyIsSpace false] ++ lits ("review") ++ [.opt 's'] }

/-- Python `_extract_reviews_count`: `int(capture.replace(',','').replace('.',''))`;
None when the pattern is absent or the conversion fails. -/
def extractReviewsCount (html : String) : Option Int :=
  match reSearchGroup reviewsPat html.data with
  | some g => pyIntOfDigits ((g.filter (fun c => c ≠ ',')).filter (fun c => c ≠ '.'))
  | none => none

/-- Python `aria-label="Address:\s*(.*?)\s*"`. -/
def addressPat1 : RPat :=
  { pre := lits ("aria-label=\"Address:") ++ [.star pyIsSpace false]
    grp := [.star clsAnyNoNl true]
    post := [.star pyIsSpace false, .lit '"'] }

/-- Python `data-item-id="address"[^>]*aria-label="(.*?)"`. -/
def addressPat2 : RPat :=
  { pre := lits ("data-item-id=\"address\"") ++ [.star clsNotGt false] ++ lits ("aria-label=\"")
    grp := [.star clsAnyNoNl true]
    post := [.lit '"'] }

/-- Python `_extract_address`. -/
def extractAddress (html : String) : Option String :=
  match reSearchGroup addressPat1 html.data with
  | some g => some (String.mk (pyStripL g))
  | none =>
    match reSearchGroup addressPat2 html.data with
    | some g =>
      let addr := pyStripL g
      let addr :=
        if pyStartsWithL addr (("Address:").data) then pyStripL (addr.drop 8) else addr
      some (String.mk addr)
    | none => none

/-- Python `aria-label="Website:\s*(.*?)\s*"`. -/
def websitePat1 : RPat :=
  { pre := lits ("aria-label=\"Website:") ++ [.star pyIsSpace false]
    grp := [.star clsAnyNoNl true]
    post := [.star pyIsSpace false, .lit '"'] }

/-- Python `data-item-id="authority"[^>]*aria-label="[^"]*?([\w][\w.-]+\.\w{2,})`. -/
def websitePat2 : RPat :=
  { pre := lits ("data-item-id=\"authority\"") ++ [.star clsNotGt false] ++
      lits ("aria-label=\"") ++ [.star clsNotQuote true]
    grp := [.cls clsWord, .cls clsWordDotDash, .star clsWordDotDash false,
            .lit '.', .cls clsWord, .cls clsWord, .star clsWord false]
    post := [] }

/-- Prefix `https://` when no scheme is present. -/
def ensureScheme (w : String) : String :=
  if pyStartsWith w ("http://") || pyStartsWith w ("https://") then w
  else ("https://") ++ w

/-- Python `_extract_website`. -/
def extractWebsite (html : String) : Option String :=
  match reSearchGroup websitePat1 html.data with
  | some g =>
    let w := pyStripL g
    if w ≠ [] then some (ensureScheme (String.mk w))
    else
      match reSearchGroup websitePat2 html.data with
      | some g2 => some (ensureScheme (String.mk g2))
      | none => none
  | none =>
    match reSearchGroup websitePat2 html.data with
    | some g2 => some (ensureScheme (String.mk g2))
    | none => none

/-- Python `data-item-id="phone:tel:(\d+)"`. -/
def phonePat1 : RPat :=
  { pre := lits ("data-item-id=\"phone:tel:")
    grp := [.cls clsDigit, .star clsDigit false]
    post := [.lit '"'] }

/-- Python `aria-label="Phone:\s*(.*?)\s*"`. -/
def phonePat2 : RPat :=
  { pre := lits ("aria-label=\"Phone:") ++ [.star pyIsSpace false]
    grp := [.star clsAnyNoNl true]
    post := [.star pyIsSpace false, .lit '"'] }

/-- Python `_extract_phone`: digits from the tel item id, else the digits of the
Phone aria-label (`re.sub(r'\D', '', ...)` keeps exactly the digits). -/
def extractPhone (html : String) : Option String :=
  match reSearchGroup phonePat1 html.data with
  | some g => some (String.mk g)
  | none =>
    match reSearchGroup phonePat2 html.data with
    | some g =>
      let phone := g.filter Char.isDigit
      if phone ≠ [] then some (String.mk phone) else none
    | none => none

/-- Python `<h1[^>]*>.*?</h1>` (whole match; its end delimits the category area). -/
def h1FullPat : RPat :=
  { pre := lits ("<h1") ++ [.star clsNotGt false, .lit '>', .star clsAny true] ++ lits ("</h1>")
    grp := []
    post := [] }

/-- Python `<span[^>]*>([^<]{2,50})</span>`. -/
def spanPat : RPat :=
  { pre := lits ("<span") ++ [.star clsNotGt false, .lit '>']
    grp := [.repRange clsNotLt 2 50]
    post := lits ("</span>") }

/-- The middle-dot / price-level glyphs skipped by the category heuristic. -/
def categorySkipList : List String := ["·", "$$", "$$$", "$$$$", "$"]

/-- One span candidate survives the noise filters and is taken as the
category; otherwise the scan continues with the remaining spans. -/
def categoryScan : List (List Char) → Option (List String)
  | [] => none
  | g :: rest =>
    let text := pyStripL g
    if pyMatchFullPlus clsNoiseChars text then categoryScan rest
    else if hasSub (pyLower (String.mk text)) ("review") then categoryScan rest
    else if categorySkipList.contains (String.mk text) || String.mk text = ("·") then
      categoryScan rest
    else if text.length = 1 && !(text.headI.isAlpha) then categoryScan rest
    else if text.length > 1 && (text.headI.isAlpha || text.headI.isDigit) then
      some [String.mk text]
    else categoryScan rest

/-- Python `_extract_categories`: scan the 3000 characters after the first h1 for
short span texts, returning the first survivor as a one-element list. -/
def extractCategories (html : String) : Option (List String) :=
  match reSearchRest h1FullPat html.data with
  | some afterH1 =>
    let area := afterH1.take 3000
    categoryScan (reFindAll spanPat area)
  | none => none

/-! Section: extractor.py — `extract_place_data` -/

/-- The rendered-source field set (outputs of the seven extractors). -/
structure Rendered where
  name : Option String := none
  rating : Option Rat := none
  reviews_count : Option Int := none
  address : Option String := none
  website : Option String := none
  phone : Option String := none
  categories : Option (List String) := none

def emptyRendered : Rendered := {}

def renderedOf (html : String) : Rendered :=
  { name := extractName html
    rating := extractRating html
    reviews_count := extractReviewsCount html
    address := extractAddress html
    website := extractWebsite html
    phone := extractPhone html
    categories := extractCategories html }

/-- The final dict built by `extract_place_data` (absent key = `none`). -/
structure PlaceDetails where
  name : Option JValue := none
  place_id : Option JValue := none
  coordinates : Option JValue := none
  address : Option JValue := none
  rating : Option JValue := none
  reviews_count : Option JValue := none
  categories : Option JValue := none
  website : Option JValue := none
  phone : Option JValue := none

/-- Python `place_details` is truthy: at least one key was written. -/
def pdNonEmpty (d : PlaceDetails) : Bool :=
  d.name.isSome || d.place_id.isSome || d.coordinates.isSome || d.address.isSome ||
  d.rating.isSome || d.reviews_count.isSome || d.categories.isSome ||
  d.website.isSome || d.phone.isSome

/-- Python `if x: place_details[k] = x` — key written only when the value is truthy. -/
def keepTruthy (o : Option JValue) : Option JValue :=
  if jTruthyO o then o else none

/-- Lines 250–288 of extractor.py: per-field fallback from the rendered
values to the structured `init_data`, then the truthiness /
`is not None` filters that build `place_details`. -/
def extractPlaceDataFields (r : Rendered) (ini : InitResult) : PlaceDetails :=
  let place_id := ini.place_id
  let coordinates := ini.coordinates
  let name := let v := Option.map JValue.str r.name
              if jTruthyO v then v else ini.name
  let rating := let v := Option.map JValue.num r.rating
                if jTruthyO v then v else ini.rating
  let reviews_count := let v := Option.map (fun i => JValue.num (i : Rat)) r.reviews_count
                       if jTruthyO v then v else ini.reviews_count
  let address := let v := Option.map JValue.str r.address
                 if jTruthyO v then v else ini.address
  let website := let v := Option.map JValue.str r.website
                 if jTruthyO v then v else ini.website
  let categories := let v := Option.map (fun l => JValue.arr (l.map JValue.str)) r.categories
                    if jTruthyO v then v else ini.categories
  let phone := Option.map JValue.str r.phone
  { name := keepTruthy name
    place_id := keepTruthy place_id
    coordinates := keepTruthy coordinates
    address := keepTruthy address
    rating := rating                 -- `if rating is not None`
    reviews_count := reviews_count   -- `if reviews_count is not None`
    categories := keepTruthy categories
    website := keepTruthy website
    phone := keepTruthy phone }

/-- Python `extract_place_data(html_content)`: `None` for falsy input, run the
rendered extractors and the structured-state parser, merge, and return
`None` when the resulting dict is empty. -/
def extractPlaceData (htmlContent : Option String) : Option PlaceDetails :=
  match htmlContent with
  | none => none
  | some h =>
    if h = "" then none
    else
      let pd := extractPlaceDataFields (renderedOf h) (extractFromAppInitState h)
      if pdNonEmpty pd then some pd else none

/-! Section: scraper.py — `try_load_website` -/

/-- Outcome of `page.goto` as observed by `try_load_website`: a response
with an HTTP status, a navigation with no response object, a Playwright
timeout, or any other raised exception carrying a message. -/
inductive NavOutcome where
  | response : Nat → NavOutcome
  | noResponse : NavOutcome
  | timedOut : NavOutcome
  | raised : String → NavOutcome

/-- The permission/forbidden keywords checked against `str(e).lower()`. -/
def probeKeywords : List String := ["forbidden", "permission", "access denied", "unauthorized"]

/-- Python `try_load_website`: classify the navigation outcome as one of
`accessible` / `forbidden` / `timeout` / `error`; every exception is caught. -/
def tryLoadWebsite (nav : NavOutcome) : String :=
  match nav with
  | .response status =>
    if status ∈ ([403, 401, 451] : List Nat) then ("forbidden")
    else if 400 ≤ status then ("error")
    else ("accessible")
  | .noResponse => ("error")
  | .timedOut => ("timeout")
  | .raised msg =>
    if probeKeywords.any (fun k => hasSub (pyLower msg) k) then ("forbidden")
    else ("error")

/-! Section: scraper.py — scroll loop and link collection -/

/-- Python `MAX_SCROLL_ATTEMPTS_WITHOUT_NEW_LINKS`. -/
def maxScrollAttemptsWithoutNewLinks : Nat := 15

/-- What one scroll iteration observes from the page: the detail-page
anchors currently rendered, the feed's new scroll height, and whether the
end-of-list marker is visible. -/
structure ScrollObs where
  hrefs : List String
  newHeight : Int
  endMarker : Bool

inductive ExitReason where
  | maxReached : ExitReason
  | endOfList : ExitReason
  | noNewLinks : ExitReason
  | ranOut : ExitReason
deriving DecidableEq

/-- Union the freshly observed links into the running set (modelled as a
duplicate-free list in first-seen order); also report whether any link was
new (`len(current_links - place_links) > 0`). -/
def addLinks (links : List String) (found : List String) : List String × Bool :=
  let fresh := (found.eraseDups).filter (fun l => ¬ links.contains l)
  (links ++ fresh, !fresh.isEmpty)

/-- The scroll loop of `scrape_google_maps` (lines 368–423): one iteration
per observation; the observation list is the fuel (exhaustion = the page
kept the loop going past the modelled horizon, `ranOut`). -/
def scrollLoop (maxPlaces : Option Nat) : List ScrollObs → List String → Int → Nat →
    List String × ExitReason
  | [], links, _, _ => (links, .ranOut)
  | o :: rest, links, lastHeight, attempts =>
    let updated := (addLinks links o.hrefs).1
    let newLinksFound := (addLinks links o.hrefs).2
    let capHit : Bool := match maxPlaces with
      | some m => m ≤ updated.length
      | none => false
    if capHit then (updated.take (maxPlaces.getD 0), .maxReached)
    else if o.newHeight = lastHeight then
      if o.endMarker then (updated, .endOfList)
      else if !newLinksFound then
        let attempts' := attempts + 1
        if maxScrollAttemptsWithoutNewLinks ≤ attempts' then (updated, .noNewLinks)
        else scrollLoop maxPlaces rest updated lastHeight attempts'
      else scrollLoop maxPlaces rest updated lastHeight 0
    else scrollLoop maxPlaces rest updated o.newHeight 0

/-- Link collection (lines 350–423): wait for the feed; on timeout either
short-circuit to the current URL when it is already a detail page, or abort
the run (`None` models "return []"). When the feed is present, run the
scroll loop from an empty link set. -/
def collectLinks (feedVisible : Bool) (urlIsPlacePage : Bool) (pageUrl : String)
    (maxPlaces : Option Nat) (initialHeight : Int) (obs : List ScrollObs) :
    Option (List String) :=
  if feedVisible then some (scrollLoop maxPlaces obs [] initialHeight 0).1
  else if urlIsPlacePage then some [pageUrl]
  else none

/-! Section: scraper.py — per-item processing (lines 437–493) -/

/-- One output record: the extracted fields (with `link` and possibly the
probe's overwrites applied). -/
structure PlaceRecord where
  fields : PlaceDetails
  link : String
  original_website : Option JValue := none

/-- Python `website_url and website_url not in ['', 'N/A', None]`. -/
def probeWorthy (v : JValue) : Bool :=
  jTruthy v && !(v matches .str ("")) && !(v matches .str ("N/A")) && !(v matches .null)

/-- The website sentinel written for a given probe status. -/
def sentinelFor (status : String) : Option String :=
  if status = ("accessible") then none
  else if status = ("forbidden") then some ("Potreban pristup")
  else if status = ("timeout") then some ("Timeout")
  else if status = ("error") then some ("Greška pri učitavanju")
  else none

/-- Per-item processing after navigation and content retrieval: extract;
when truthy, add the link, optionally probe the website (an exception from
the probe block is caught and mapped to its own sentinel), and append the
record; otherwise append nothing. -/
def processPlace (results : List PlaceRecord) (pd : Option PlaceDetails)
    (link : String) (probeRaises : Bool) (probeNav : NavOutcome) : List PlaceRecord :=
  match pd with
  | none => results
  | some d =>
    let websiteUrl := d.website.getD (.str (""))
    if probeWorthy websiteUrl then
      if probeRaises then
        results ++ [{ fields := { d with website := some (.str ("Greška pri provjeri")) }
                      link := link, original_website := some websiteUrl }]
      else
        match sentinelFor (tryLoadWebsite probeNav) with
        | none => results ++ [{ fields := d, link := link }]
        | some sent =>
          results ++ [{ fields := { d with website := some (.str sent) }
                        link := link, original_website := some websiteUrl }]
    else results ++ [{ fields := d, link := link }]

/-! Section: theorems about the claims -/

/-- C9: for an empty (`""`) or absent (`None`) page markup input,
`extract_place_data` returns `None` immediately and no record is produced. -/
theorem C9_empty_markup_returns_none :
    extractPlaceData none = none ∧ extractPlaceData (some ("")) = none :=
  ⟨rfl, rfl⟩

/-- C2: `try_load_website` never raises past its own boundary and returns
exactly one of accessible/forbidden/timeout/error; statuses 401/403/451 map
to forbidden, every other status ≥ 400 to error, statuses below 400 to
accessible, no response object to error, a timeout to timeout, and any
other exception to forbidden exactly when its lowercased text contains one
of the permission/forbidden keywords, else to error. -/
theorem C2_website_probe_classification :
    (∀ nav : NavOutcome, tryLoadWebsite nav = ("accessible") ∨
      tryLoadWebsite nav = ("forbidden") ∨ tryLoadWebsite nav = ("timeout") ∨
      tryLoadWebsite nav = ("error"))
  ∧ (∀ s : Nat, s = 401 ∨ s = 403 ∨ s = 451 → tryLoadWebsite (.response s) = ("forbidden"))
  ∧ (∀ s : Nat, 400 ≤ s → ¬(s = 401 ∨ s = 403 ∨ s = 451) →
      tryLoadWebsite (.response s) = ("error"))
  ∧ (∀ s : Nat, s < 400 → tryLoadWebsite (.response s) = ("accessible"))
  ∧ tryLoadWebsite NavOutcome.noResponse = ("error")
  ∧ tryLoadWebsite NavOutcome.timedOut = ("timeout")
  ∧ (∀ msg, probeKeywords.any (fun k => hasSub (pyLower msg) k) = true →
      tryLoadWebsite (.raised msg) = ("forbidden"))
  ∧ (∀ msg, probeKeywords.any (fun k => hasSub (pyLower msg) k) = false →
      tryLoadWebsite (.raised msg) = ("error")) := by
  refine ⟨?_, ?_, ?_, ?_, rfl, rfl, ?_, ?_⟩
  · intro nav
    cases nav with
    | response s =>
      simp only [tryLoadWebsite]
      split
      · exact Or.inr (Or.inl rfl)
      · split
        · exact Or.inr (Or.inr (Or.inr rfl))
        · exact Or.inl rfl
    | noResponse => exact Or.inr (Or.inr (Or.inr rfl))
    | timedOut => exact Or.inr (Or.inr (Or.inl rfl))
    | raised msg =>
      simp only [tryLoadWebsite]
      split
      · exact Or.inr (Or.inl rfl)
      · exact Or.inr (Or.inr (Or.inr rfl))
  · intro s hs
    simp only [tryLoadWebsite]
    have hmem : s ∈ ([403, 401, 451] : List Nat) := by
      rcases hs with h | h | h <;> simp [h]
    simp [hmem]
  · intro s hge hne
    have hmem : s ∉ ([403, 401, 451] : List Nat) := by
      intro hm
      simp only [List.mem_cons, List.mem_singleton, List.not_mem_nil, or_false] at hm
      rcases hm with h | h | h <;> omega
    simp [tryLoadWebsite, hmem, hge]
  · intro s hlt
    have hmem : s ∉ ([403, 401, 451] : List Nat) := by
      intro hm
      simp only [List.mem_cons, List.mem_singleton, List.not_mem_nil, or_false] at hm
      rcases hm with h | h | h <;> omega
    have hge : ¬ 400 ≤ s := by omega
    simp [tryLoadWebsite, hmem, hge]
  · intro msg hk
    simp [tryLoadWebsite, hk]
  · intro msg hk
    simp [tryLoadWebsite, hk]

theorem C2_website_probe_classification_witness :
    tryLoadWebsite (.response 403) = ("forbidden")
  ∧ tryLoadWebsite (.response 500) = ("error")
  ∧ tryLoadWebsite (.response 200) = ("accessible")
  ∧ tryLoadWebsite (.raised ("net::ERR Access Denied by host")) = ("forbidden")
  ∧ tryLoadWebsite (.raised ("connection reset")) = ("error")
  ∧ tryLoadWebsite NavOutcome.timedOut = ("timeout")
  ∧ tryLoadWebsite NavOutcome.noResponse = ("error") :=
  ⟨C2_website_probe_classification.2.1 403 (Or.inr (Or.inl rfl)),
   C2_website_probe_classification.2.2.1 500 (by omega) (by omega),
   C2_website_probe_classification.2.2.2.1 200 (by omega),
   C2_website_probe_classification.2.2.2.2.2.2.1 ("net::ERR Access Denied by host") rfl,
   C2_website_probe_classification.2.2.2.2.2.2.2 ("connection reset") rfl,
   C2_website_probe_classification.2.2.2.2.2.1,
   C2_website_probe_classification.2.2.2.2.1⟩

/-- C7 counterexample: a markup whose review count uses a period as the
thousands separator ("1.234 reviews" directly after the rating display)
yields no reviews count at all — the capture group `[\d,]+` admits digits
and commas only, so the claimed value 1234 is not produced. -/
theorem C7_period_separator_counterexample :
    extractReviewsCount
      ("class=\"fontDisplayMedium\">4.5</div><span>1.234 reviews</span>") = none :=
  rfl

def rmPre : List Char := ("class=\"fontDisplayMedium\">4.5</div><span>").data

def rmMid : List Char := ("fontDisplayMedium\">4.5</div><span>").data

def rmSuf : List Char := (" reviews</span>").data

def reviewsMarkup (cnt : List Char) : String := String.mk (rmPre ++ cnt ++ rmSuf)

lemma mem_starSplits_all (p : Char → Bool) :
    ∀ (r s2 : List Char), s2 ∈ starSplits p r →
    s2.length ≤ r.length ∧ (r.take (r.length - s2.length)).all p = true := by
  intro r
  induction r with
  | nil =>
    intro s2 hs
    simp only [starSplits, List.mem_singleton] at hs
    subst hs
    simp
  | cons c r ih =>
    intro s2 hs
    simp only [starSplits, List.mem_cons] at hs
    rcases hs with rfl | hs
    · simp
    · by_cases hpc : p c
      · rw [if_pos hpc] at hs
        obtain ⟨hlen, hall⟩ := ih s2 hs
        refine ⟨by simp; omega, ?_⟩
        have hk : (c :: r).length - s2.length = (r.length - s2.length) + 1 := by
          simp only [List.length_cons]; omega
        rw [hk, List.take_succ_cons]
        simp [hpc, hall]
      · rw [if_neg hpc] at hs
        simp at hs

lemma starSplits_reverse_head (p : Char → Bool) :
    ∀ (cnt : List Char) (c : Char) (rs : List Char), cnt.all p = true → p c = false →
    ∃ l', (starSplits p (cnt ++ c :: rs)).reverse = (c :: rs) :: l' := by
  intro cnt
  induction cnt with
  | nil =>
    intro c rs _ hc
    refine ⟨[], ?_⟩
    simp [starSplits, hc]
  | cons d cnt ih =>
    intro c rs hall hc
    simp only [List.all_cons, Bool.and_eq_true] at hall
    obtain ⟨l', hl'⟩ := ih c rs hall.2 hc
    refine ⟨l' ++ [d :: (cnt ++ c :: rs)], ?_⟩
    simp [starSplits, hall.1, hl']

lemma seqMatch_grp_head (p : Char → Bool) (cnt : List Char) (c : Char) (rs : List Char)
    (hne : cnt ≠ []) (hall : cnt.all p = true) (hc : p c = false) :
    ∃ l', seqMatch [.cls p, .star p false] (cnt ++ c :: rs) = (c :: rs) :: l' := by
  obtain ⟨d, cnt', rfl⟩ := List.exists_cons_of_ne_nil hne
  simp only [List.all_cons, Bool.and_eq_true] at hall
  obtain ⟨l', hl'⟩ := starSplits_reverse_head p cnt' c rs hall.2 hc
  refine ⟨l', ?_⟩
  simp [seqMatch, itemAlts, hall.1, List.flatMap_singleton', hl', List.cons_append]

lemma seqMatch_grp_mem (p : Char → Bool) (s1 s2 : List Char)
    (h : s2 ∈ seqMatch [.cls p, .star p false] s1) :
    (s1.take (s1.length - s2.length)).all p = true := by
  cases s1 with
  | nil => simp [seqMatch, itemAlts] at h
  | cons c r =>
    simp only [seqMatch, itemAlts] at h
    by_cases hpc : p c
    · rw [if_pos hpc] at h
      simp only [List.flatMap_cons, List.flatMap_nil, List.append_nil,
        List.flatMap_singleton', Bool.false_eq_true, if_false] at h
      rw [List.mem_reverse] at h
      obtain ⟨hlen, hall⟩ := mem_starSplits_all p r s2 h
      have hk : (c :: r).length - s2.length = (r.length - s2.length) + 1 := by
        simp only [List.length_cons]; omega
      rw [hk, List.take_succ_cons]
      simp [hpc, hall]
    · rw [if_neg hpc] at h
      simp at h

lemma reviewsPat_pre_eq : reviewsPat.pre =
    [.lit ('f'), .lit ('o'), .lit ('n'), .lit ('t'), .lit ('D'), .lit ('i'), .lit ('s'),
     .lit ('p'), .lit ('l'), .lit ('a'), .lit ('y'), .lit ('M'), .lit ('e'), .lit ('d'),
     .lit ('i'), .lit ('u'), .lit ('m'), .lit ('\"'), .lit ('>'),
     .cls clsDigitDot, .star clsDigitDot false, .lit ('<'), .star clsAny true, .lit ('>')] := rfl

lemma rmMid_eq : rmMid =
    'f' :: 'o' :: 'n' :: 't' :: 'D' :: 'i' :: 's' :: 'p' :: 'l' :: 'a' :: 'y' :: 'M' ::
    'e' :: 'd' :: 'i' :: 'u' :: 'm' :: '\"' :: '>' :: '4' :: '.' :: '5' :: '<' :: '/' ::
    'd' :: 'i' :: 'v' :: '>' :: '<' :: 's' :: 'p' :: 'a' :: 'n' :: '>' :: [] := rfl

lemma seqMatch_pre_reviews (cnt : List Char) :
    ∃ junk, seqMatch reviewsPat.pre (rmMid ++ cnt ++ rmSuf) =
      ('<' :: 's' :: 'p' :: 'a' :: 'n' :: '>' :: (cnt ++ rmSuf)) :: (cnt ++ rmSuf) :: junk := by
  rw [reviewsPat_pre_eq, rmMid_eq]
  simp only [List.cons_append, List.nil_append, seqMatch, itemAlts, starSplits,
    clsAny, clsDigitDot, Char.reduceEq, reduceIte,
    List.flatMap_cons, List.flatMap_nil, List.append_nil, List.nil_append]
  exact ⟨_, rfl⟩

lemma searchHere_reviews_fail (c : Char) (t : List Char) (hc : ¬ c = 'f') :
    searchHere reviewsPat (c :: t) = none := by
  unfold searchHere
  rw [reviewsPat_pre_eq]
  simp [seqMatch, itemAlts, hc]

lemma searchHere_reviews_at (cnt : List Char) (hne : cnt ≠ [])
    (hall : cnt.all clsDigitComma = true) :
    searchHere reviewsPat (rmMid ++ cnt ++ rmSuf) = some (cnt, ("</span>").data) := by
  obtain ⟨junk, hpre⟩ := seqMatch_pre_reviews cnt
  have hsuf : rmSuf = ' ' :: (("reviews</span>").data) := rfl
  obtain ⟨l', hgrp⟩ :=
    seqMatch_grp_head clsDigitComma cnt ' ' (("reviews</span>").data) hne hall (by rfl)
  have hgrp' : seqMatch reviewsPat.grp (cnt ++ rmSuf) = rmSuf :: l' := by
    rw [show reviewsPat.grp = [.cls clsDigitComma, .star clsDigitComma false] from rfl, hsuf]
    exact hgrp
  have hF1 : seqMatch reviewsPat.grp
      ('<' :: 's' :: 'p' :: 'a' :: 'n' :: '>' :: (cnt ++ rmSuf)) = [] := by
    simp [seqMatch, itemAlts, clsDigitComma]
  have hpost : seqMatch reviewsPat.post rmSuf =
      [("</span>").data, 's' :: ("</span>").data] := by rfl
  have htake : (cnt ++ rmSuf).take ((cnt ++ rmSuf).length - rmSuf.length) = cnt := by
    rw [List.length_append, Nat.add_sub_cancel, List.take_left]
  unfold searchHere
  rw [hpre]
  simp only [List.flatMap_cons, hF1, List.flatMap_nil, List.nil_append, hgrp',
    hpost, List.map_cons, List.map_nil, htake, List.cons_append, List.head?_cons]

lemma reSearchGo_reviews (cnt : List Char) (hne : cnt ≠ [])
    (hall : cnt.all clsDigitComma = true) (f : Nat) :
    reSearchGo (f + 8) reviewsPat (rmPre ++ cnt ++ rmSuf) = some (cnt, ("</span>").data) := by
  have h0 : rmPre = 'c' :: 'l' :: 'a' :: 's' :: 's' :: '=' :: '\"' :: rmMid := rfl
  have step : ∀ (fl : Nat) (c : Char) (t : List Char), ¬ c = 'f' →
      reSearchGo (fl + 1) reviewsPat (c :: t) = reSearchGo fl reviewsPat t := by
    intro fl c t hc
    simp [reSearchGo, searchHere_reviews_fail c t hc]
  rw [h0]
  simp only [List.cons_append]
  rw [show f + 8 = f + 7 + 1 from rfl, step (f+7) 'c' _ (by decide)]
  rw [show f + 7 = f + 6 + 1 from rfl, step (f+6) 'l' _ (by decide)]
  rw [show f + 6 = f + 5 + 1 from rfl, step (f+5) 'a' _ (by decide)]
  rw [show f + 5 = f + 4 + 1 from rfl, step (f+4) 's' _ (by decide)]
  rw [show f + 4 = f + 3 + 1 from rfl, step (f+3) 's' _ (by decide)]
  rw [show f + 3 = f + 2 + 1 from rfl, step (f+2) '=' _ (by decide)]
  rw [show f + 2 = f + 1 + 1 from rfl, step (f+1) '\"' _ (by decide)]
  simp only [reSearchGo]
  rw [searchHere_reviews_at cnt hne hall]

lemma searchHere_capture_all (p : Char → Bool) (pat : RPat)
    (hg : pat.grp = [.cls p, .star p false]) (s cap rest : List Char)
    (h : searchHere pat s = some (cap, rest)) : cap.all p = true := by
  unfold searchHere at h
  have hmem : (cap, rest) ∈ (seqMatch pat.pre s).flatMap (fun s1 =>
      (seqMatch pat.grp s1).flatMap (fun s2 =>
        (seqMatch pat.post s2).map (fun s3 => (s1.take (s1.length - s2.length), s3)))) :=
    List.mem_of_mem_head? h
  rw [List.mem_flatMap] at hmem
  obtain ⟨s1, _, hmem⟩ := hmem
  rw [List.mem_flatMap] at hmem
  obtain ⟨s2, hs2, hmem⟩ := hmem
  rw [List.mem_map] at hmem
  obtain ⟨s3, _, heq⟩ := hmem
  have hcap : cap = s1.take (s1.length - s2.length) := by
    have hfst := congrArg Prod.fst heq
    simpa using hfst.symm
  rw [hg] at hs2
  rw [hcap]
  exact seqMatch_grp_mem p s1 s2 hs2

lemma reSearchGo_capture (p : Char → Bool) (pat : RPat)
    (hg : pat.grp = [.cls p, .star p false]) :
    ∀ (fuel : Nat) (s cap rest : List Char),
      reSearchGo fuel pat s = some (cap, rest) → cap.all p = true := by
  intro fuel
  induction fuel with
  | zero => intro s cap rest h; simp [reSearchGo] at h
  | succ f ih =>
    intro s cap rest h
    simp only [reSearchGo] at h
    cases hsh : searchHere pat s with
    | some r =>
      rw [hsh] at h
      simp only [] at h
      obtain rfl : r = (cap, rest) := by
        cases h; rfl
      exact searchHere_capture_all p pat hg s cap rest hsh
    | none =>
      rw [hsh] at h
      cases s with
      | nil => simp at h
      | cons c t => exact ih t cap rest h

lemma filter_comma_dot_eq_digit (cnt : List Char) (hall : cnt.all clsDigitComma = true) :
    (cnt.filter (fun c => c ≠ ',')).filter (fun c => c ≠ '.') = cnt.filter Char.isDigit := by
  induction cnt with
  | nil => rfl
  | cons c r ih =>
    simp only [List.all_cons, Bool.and_eq_true] at hall
    have hr := ih hall.2
    have hcc : c.isDigit = true ∨ c = ',' := by
      have hx := hall.1
      unfold clsDigitComma at hx
      simpa using hx
    rcases hcc with hd | hcomma
    · have h1 : c ≠ ',' := by
        intro hcomma; subst hcomma; exact absurd hd (by decide)
      have h2 : c ≠ '.' := by
        intro hdot; subst hdot; exact absurd hd (by decide)
      rw [List.filter_cons_of_pos (by simpa using h1), List.filter_cons_of_pos (by simpa using h2),
        List.filter_cons_of_pos (by simpa using hd), hr]
    · subst hcomma
      rw [List.filter_cons_of_neg (by simp), List.filter_cons_of_neg (by decide), hr]

/-- C7 (amended): universally — (1) for every nonempty digits-and-commas
count text placed between the rating display and the word "reviews", the
extraction returns exactly the integer conversion of the capture with the
separators stripped; (2) when that count contains at least one digit the
result is the full integer value of its digits; (3) for every markup, any
text captured by the pattern consists of digits and commas only, so a
period-separated count can never be matched; and (4) for every markup on
which the pattern finds no match the extraction is absent. -/
theorem C7_reviews_count_universal :
    (∀ cnt : List Char, cnt ≠ [] → cnt.all clsDigitComma = true →
      extractReviewsCount (reviewsMarkup cnt) = pyIntOfDigits (cnt.filter Char.isDigit))
  ∧ (∀ cnt : List Char, cnt ≠ [] → cnt.all clsDigitComma = true →
      cnt.filter Char.isDigit ≠ [] →
      extractReviewsCount (reviewsMarkup cnt) =
        some (Int.ofNat ((cnt.filter Char.isDigit).foldl (fun a c => a * 10 + (c.toNat - 48)) 0)))
  ∧ (∀ (html : String) (g : List Char),
      reSearchGroup reviewsPat html.data = some g → g.all clsDigitComma = true)
  ∧ (∀ html : String, reSearchGroup reviewsPat html.data = none →
      extractReviewsCount html = none) := by
  have main : ∀ cnt : List Char, cnt ≠ [] → cnt.all clsDigitComma = true →
      reSearchGroup reviewsPat (reviewsMarkup cnt).data = some cnt := by
    intro cnt hne hall
    have hdata : (reviewsMarkup cnt).data = rmPre ++ cnt ++ rmSuf := rfl
    unfold reSearchGroup
    rw [hdata]
    have h1 : rmPre.length = 41 := rfl
    have h2 : rmSuf.length = 15 := rfl
    have hlen : (rmPre ++ cnt ++ rmSuf).length + 1 = (cnt.length + 49) + 8 := by
      rw [List.length_append, List.length_append, h1, h2]
      omega
    rw [hlen, reSearchGo_reviews cnt hne hall (cnt.length + 49)]
    rfl
  have p1 : ∀ cnt : List Char, cnt ≠ [] → cnt.all clsDigitComma = true →
      extractReviewsCount (reviewsMarkup cnt) = pyIntOfDigits (cnt.filter Char.isDigit) := by
    intro cnt hne hall
    unfold extractReviewsCount
    rw [main cnt hne hall]
    exact congrArg pyIntOfDigits (filter_comma_dot_eq_digit cnt hall)
  refine ⟨p1, ?_, ?_, ?_⟩
  · intro cnt hne hall hne2
    rw [p1 cnt hne hall]
    have hall2 : (cnt.filter Char.isDigit).all Char.isDigit = true := by
      rw [List.all_eq_true]
      exact fun c hc => (List.mem_filter.mp hc).2
    unfold pyIntOfDigits
    simp [hne2, hall2]
  · intro html g hsg
    unfold reSearchGroup at hsg
    cases hgo : reSearchGo (html.data.length + 1) reviewsPat html.data with
    | none => rw [hgo] at hsg; simp at hsg
    | some pr =>
      rw [hgo] at hsg
      obtain ⟨cap, rest⟩ := pr
      obtain rfl : cap = g := by simpa using hsg
      exact reSearchGo_capture clsDigitComma reviewsPat rfl _ _ _ _ hgo
  · intro html h
    unfold extractReviewsCount
    rw [h]

theorem C7_reviews_count_universal_witness :
    extractReviewsCount (reviewsMarkup (("1,234").data)) = some 1234
  ∧ (("1,234").data).all clsDigitComma = true
  ∧ extractReviewsCount ("no reviews pattern here") = none := by
  refine ⟨?_, ?_, ?_⟩
  · have h := C7_reviews_count_universal.2.1 (("1,234").data) (by decide) (by decide) (by decide)
    rw [h]
    rfl
  · exact C7_reviews_count_universal.2.2.1 (reviewsMarkup (("1,234").data)) (("1,234").data)
      (by rfl)
  · exact C7_reviews_count_universal.2.2.2 ("no reviews pattern here") (by rfl)

/-- C1: in the merged record, `place_id` and `coordinates` are taken only
from the structured source (the rendered field set cannot influence them),
and for each of name, rating, reviews_count, address, website and
categories a truthy rendered value is never overridden, while the
structured value is consulted only when the rendered value is
absent/falsy (the final dict still drops a falsy merged value). -/
theorem C1_field_resolution_precedence (r : Rendered) (ini : InitResult) :
    ((extractPlaceDataFields r ini).place_id = (extractPlaceDataFields emptyRendered ini).place_id)
  ∧ ((extractPlaceDataFields r ini).coordinates =
      (extractPlaceDataFields emptyRendered ini).coordinates)
  ∧ ((extractPlaceDataFields r ini).place_id =
      (if jTruthyO ini.place_id then ini.place_id else none))
  ∧ ((extractPlaceDataFields r ini).coordinates =
      (if jTruthyO ini.coordinates then ini.coordinates else none))
  ∧ (jTruthyO (Option.map JValue.str r.name) = true →
      (extractPlaceDataFields r ini).name = Option.map JValue.str r.name)
  ∧ (jTruthyO (Option.map JValue.str r.name) = false →
      (extractPlaceDataFields r ini).name = (if jTruthyO ini.name then ini.name else none))
  ∧ (jTruthyO (Option.map JValue.num r.rating) = true →
      (extractPlaceDataFields r ini).rating = Option.map JValue.num r.rating)
  ∧ (jTruthyO (Option.map JValue.num r.rating) = false →
      (extractPlaceDataFields r ini).rating = ini.rating)
  ∧ (jTruthyO (Option.map (fun i => JValue.num (i : Rat)) r.reviews_count) = true →
      (extractPlaceDataFields r ini).reviews_count =
        Option.map (fun i => JValue.num (i : Rat)) r.reviews_count)
  ∧ (jTruthyO (Option.map (fun i => JValue.num (i : Rat)) r.reviews_count) = false →
      (extractPlaceDataFields r ini).reviews_count = ini.reviews_count)
  ∧ (jTruthyO (Option.map JValue.str r.address) = true →
      (extractPlaceDataFields r ini).address = Option.map JValue.str r.address)
  ∧ (jTruthyO (Option.map JValue.str r.address) = false →
      (extractPlaceDataFields r ini).address = (if jTruthyO ini.address then ini.address else none))
  ∧ (jTruthyO (Option.map JValue.str r.website) = true →
      (extractPlaceDataFields r ini).website = Option.map JValue.str r.website)
  ∧ (jTruthyO (Option.map JValue.str r.website) = false →
      (extractPlaceDataFields r ini).website = (if jTruthyO ini.website then ini.website else none))
  ∧ (jTruthyO (Option.map (fun l => JValue.arr (l.map JValue.str)) r.categories) = true →
      (extractPlaceDataFields r ini).categories =
        Option.map (fun l => JValue.arr (l.map JValue.str)) r.categories)
  ∧ (jTruthyO (Option.map (fun l => JValue.arr (l.map JValue.str)) r.categories) = false →
      (extractPlaceDataFields r ini).categories =
        (if jTruthyO ini.categories then ini.categories else none)) := by
  refine ⟨rfl, rfl, rfl, rfl, ?_, ?_, ?_, ?_, ?_, ?_, ?_, ?_, ?_, ?_, ?_, ?_⟩ <;>
    intro h <;>
    simp only [extractPlaceDataFields, keepTruthy, h, if_true, if_false, Bool.false_eq_true]

theorem C1_field_resolution_precedence_witness :
    (extractPlaceDataFields
        { name := some ("Rendered"), rating := some 3,
          address := some ("1 Rendered St"), website := some ("https://r.example") }
        { name := some (.str ("Structured")), place_id := some (.str ("PID")),
          coordinates := some (mkCoords (.num 1) (.num 2)),
          rating := some (.num 4) }).name = some (.str ("Rendered"))
  ∧ (extractPlaceDataFields
        { name := some ("Rendered"), rating := some 3,
          address := some ("1 Rendered St"), website := some ("https://r.example") }
        { name := some (.str ("Structured")), place_id := some (.str ("PID")),
          coordinates := some (mkCoords (.num 1) (.num 2)),
          rating := some (.num 4) }).rating = some (.num 3)
  ∧ (extractPlaceDataFields
        { name := some ("Rendered"), rating := some 3,
          address := some ("1 Rendered St"), website := some ("https://r.example") }
        { name := some (.str ("Structured")), place_id := some (.str ("PID")),
          coordinates := some (mkCoords (.num 1) (.num 2)),
          rating := some (.num 4) }).place_id = some (.str ("PID"))
  ∧ (extractPlaceDataFields emptyRendered
        { name := some (.str ("Structured")), place_id := some (.str ("PID")),
          coordinates := some (mkCoords (.num 1) (.num 2)),
          rating := some (.num 4) }).name = some (.str ("Structured")) := by
  refine ⟨?_, ?_, ?_, ?_⟩
  · exact (C1_field_resolution_precedence _ _).2.2.2.2.1 rfl
  · exact (C1_field_resolution_precedence _ _).2.2.2.2.2.2.1 rfl
  · exact (C1_field_resolution_precedence _ _).2.2.1
  · exact (C1_field_resolution_precedence emptyRendered _).2.2.2.2.2.1 rfl

/-- C3: a PlaceRecord is emitted only when at least one extractable field
besides `link` is non-empty — when every extractor (rendered and
structured) returns empty, `extract_place_data` returns `None`, and the
orchestrator's per-item step appends nothing to the run output. -/
theorem C3_empty_extraction_yields_no_record :
    (∀ h : String, renderedOf h = emptyRendered → extractFromAppInitState h = emptyInit →
      extractPlaceData (some h) = none)
  ∧ (∀ (h : Option String) (pd : PlaceDetails),
      extractPlaceData h = some pd → pdNonEmpty pd = true)
  ∧ (∀ (results : List PlaceRecord) (link : String) (pr : Bool) (nav : NavOutcome),
      processPlace results none link pr nav = results) := by
  refine ⟨?_, ?_, ?_⟩
  · intro h hr hi
    by_cases he : h = ""
    · simp [extractPlaceData, he]
    · have hpd : pdNonEmpty (extractPlaceDataFields emptyRendered emptyInit) = false := rfl
      simp [extractPlaceData, he, hr, hi, hpd]
  · intro h pd hpd
    cases h with
    | none => exact absurd hpd (by simp [extractPlaceData])
    | some s =>
      simp only [extractPlaceData] at hpd
      split at hpd
      · exact absurd hpd (by simp)
      · split at hpd
        · obtain rfl := Option.some.inj hpd
          assumption
        · exact absurd hpd (by simp)
  · intro results link pr nav
    rfl

theorem C3_empty_extraction_yields_no_record_witness :
    extractPlaceData (some ("x")) = none
  ∧ pdNonEmpty (extractPlaceDataFields (renderedOf ("<h1>Cafe</h1>"))
      (extractFromAppInitState ("<h1>Cafe</h1>"))) = true
  ∧ processPlace [] none ("L") false (.response 200) = [] :=
  ⟨C3_empty_extraction_yields_no_record.1 ("x") rfl rfl,
   C3_empty_extraction_yields_no_record.2.1 (some ("<h1>Cafe</h1>"))
     (extractPlaceDataFields (renderedOf ("<h1>Cafe</h1>"))
       (extractFromAppInitState ("<h1>Cafe</h1>"))) rfl,
   C3_empty_extraction_yields_no_record.2.2 [] ("L") false (.response 200)⟩

/-- C4: the structured-state parser never raises: a missing anchor, a
delimited text not beginning with `[` or the opening brace, a JSON decode
failure, and a top-level shape mismatch each degrade to the empty field
set instead of an exception (nested shape mismatches skip fields, which is
covered by the guarded per-field definitions). -/
theorem C4_structured_parser_never_raises :
    (∀ html : String, reSearchGroup appInitPat html.data = none →
      extractFromAppInitState html = emptyInit)
  ∧ (∀ (html : String) (g : List Char), reSearchGroup appInitPat html.data = some g →
      (pyStartsWithL (pyStripL g) ['['] || pyStartsWithL (pyStripL g) [lbrace]) = false →
      extractFromAppInitState html = emptyInit)
  ∧ (∀ (html : String) (g : List Char), reSearchGroup appInitPat html.data = some g →
      pyJsonLoads (String.mk (pyStripL g)) = none →
      extractFromAppInitState html = emptyInit)
  ∧ (∀ (html : String) (g : List Char) (v : JValue),
      reSearchGroup appInitPat html.data = some g →
      pyJsonLoads (String.mk (pyStripL g)) = some v →
      jIsArr v = false →
      extractFromAppInitState html = emptyInit) := by
  refine ⟨?_, ?_, ?_, ?_⟩
  · intro html hs
    simp [extractFromAppInitState, hs]
  · intro html g hs hbr
    simp [extractFromAppInitState, hs, hbr]
  · intro html g hs hp
    simp only [extractFromAppInitState, hs]
    split
    · simp [hp]
    · rfl
  · intro html g v hs hp hv
    simp only [extractFromAppInitState, hs]
    split
    · simp only [hp]
      cases v <;> first
        | rfl
        | simp [jIsArr] at hv
    · rfl

theorem C4_structured_parser_never_raises_witness :
    extractFromAppInitState ("no anchor here") = emptyInit
  ∧ extractFromAppInitState (";window.APP_INITIALIZATION_STATE = x;window.APP_FLAGS") = emptyInit
  ∧ extractFromAppInitState (";window.APP_INITIALIZATION_STATE =[oops;window.APP_FLAGS") = emptyInit
  ∧ extractFromAppInitState
      (";window.APP_INITIALIZATION_STATE =\x7b\x7d;window.APP_FLAGS") = emptyInit :=
  ⟨C4_structured_parser_never_raises.1 ("no anchor here") rfl,
   C4_structured_parser_never_raises.2.1
     (";window.APP_INITIALIZATION_STATE = x;window.APP_FLAGS") (("x").data) rfl rfl,
   C4_structured_parser_never_raises.2.2.1
     (";window.APP_INITIALIZATION_STATE =[oops;window.APP_FLAGS") (("[oops").data) rfl rfl,
   C4_structured_parser_never_raises.2.2.2
     (";window.APP_INITIALIZATION_STATE =\x7b\x7d;window.APP_FLAGS") (("\x7b\x7d").data)
     (.obj []) rfl rfl rfl⟩

lemma pyStartsWithL_append (p q : List Char) : pyStartsWithL (p ++ q) p = true := by
  induction p with
  | nil => cases q <;> rfl
  | cons c p ih => simp [pyStartsWithL, ih]

/-- C8 (amended): for a schema-B legacy blob delivered as the framing
prefix followed by a valid JSON body, extraction equals the direct-sequence
form **provided the framed string contains no occurrence of the
two-character sequence `)` + apostrophe** — in that case the source strips
exactly the four prefix characters and the secondary decode is
transparent. -/
theorem C8_legacy_string_framing_transparent (body : String) (r : InitResult)
    (parsed : List JValue) (blob : List JValue)
    (hsep : hasSubL (legacyPrefix ++ body).data splitSep.data = false)
    (hbr : (pyStartsWithL (pyStripL (pyLstripNlL body.data)) ['['] ||
            pyStartsWithL (pyStripL (pyLstripNlL body.data)) [lbrace]) = true)
    (hp : pyJsonLoads (String.mk (pyStripL (pyLstripNlL body.data))) = some (.arr parsed))
    (h6 : jGet parsed 6 = some (.arr blob)) :
    tryParseLegacyString (legacyPrefix ++ body) r = extractLegacyBlob blob r := by
  have hdata : (legacyPrefix ++ body).data = legacyPrefix.data ++ body.data := rfl
  have hpre : pyStartsWithL (legacyPrefix ++ body).data legacyPrefix.data = true := by
    rw [hdata]; exact pyStartsWithL_append _ _
  have hdrop : (legacyPrefix ++ body).data.drop 4 = body.data := by
    rw [hdata]
    have h4 : (4 : Nat) = legacyPrefix.data.length := rfl
    rw [h4, List.drop_left]
  have hinner : legacyInnerStr (legacyPrefix ++ body) = pyStripL (pyLstripNlL body.data) := by
    unfold legacyInnerStr
    simp only [hpre, hsep, if_true, Bool.false_eq_true, if_false, hdrop]
  simp only [tryParseLegacyString, hinner, hbr, if_true, hp, h6]

/-- The framed-string body used for the C8 counterexample: a valid JSON
list whose element 6 is a legacy blob with a name containing the
two-character sequence `)` + apostrophe. -/
def c8Body : String := "[0,0,0,0,0,0,[0,0,0,0,0,0,0,0,0,0,\"PID4\",\"na)\x27me\"]]"

def c8Framed : String := legacyPrefix ++ c8Body

def c8Blob : List JValue :=
  [.num 0, .num 0, .num 0, .num 0, .num 0, .num 0, .num 0, .num 0, .num 0, .num 0,
   .str ("PID4"), .str ("na)\x27me")]

/-- C8 counterexample: a framed string whose valid JSON body contains the
sequence `)` + apostrophe. `split(")\x27", 1)` then cuts inside the body,
the remainder no longer parses, and the string path extracts nothing while
the direct-sequence form extracts the name — the claimed transparency
fails at this input. -/
theorem C8_split_eats_body_counterexample :
    c8Framed = legacyPrefix ++ c8Body
  ∧ pyJsonLoads c8Body =
      some (.arr [.num 0, .num 0, .num 0, .num 0, .num 0, .num 0, .arr c8Blob])
  ∧ tryParseLegacyString c8Framed emptyInit = emptyInit
  ∧ (extractLegacyBlob c8Blob emptyInit).name = some (.str ("na)\x27me"))
  ∧ (tryParseLegacyString c8Framed emptyInit).name ≠
      (extractLegacyBlob c8Blob emptyInit).name := by
  refine ⟨rfl, by rfl, by rfl, by rfl, ?_⟩
  intro h
  have h1 : (tryParseLegacyString c8Framed emptyInit).name = none := by rfl
  have h2 : (extractLegacyBlob c8Blob emptyInit).name = some (.str ("na)\x27me")) := by rfl
  rw [h1, h2] at h
  exact Option.noConfusion h

def c8GoodBody : String := "[0,0,0,0,0,0,[0,0,0,0,0,0,0,0,0,0,\"pid\",\"Nm\"]]"

def c8GoodBlob : List JValue :=
  [.num 0, .num 0, .num 0, .num 0, .num 0, .num 0, .num 0, .num 0, .num 0, .num 0,
   .str ("pid"), .str ("Nm")]

theorem C8_legacy_string_framing_transparent_witness :
    tryParseLegacyString (legacyPrefix ++ c8GoodBody) emptyInit =
      extractLegacyBlob c8GoodBlob emptyInit :=
  C8_legacy_string_framing_transparent c8GoodBody emptyInit
    [.num 0, .num 0, .num 0, .num 0, .num 0, .num 0, .arr c8GoodBlob] c8GoodBlob
    (by rfl) (by rfl) (by rfl) (by rfl)

/-! Section: invariants of the structured field set feeding C10: the rating and
reviews-count slots are only ever populated with truthy values (every
`setdefault` for them is guarded by a truthiness check), so they are never
the number zero. -/

def noneOrTruthy : Option JValue → Bool
  | none => true
  | some v => jTruthy v

lemma noneOrTruthy_sdflt (o : Option JValue) (v : JValue)
    (hv : jTruthy v = true) (ho : noneOrTruthy o = true) :
    noneOrTruthy (sdflt o v) = true := by
  cases o with
  | none => simpa [sdflt, noneOrTruthy] using hv
  | some w => simpa [sdflt, noneOrTruthy] using ho

lemma legacyStepName_rate (blob : List JValue) (r : InitResult) :
    (legacyStepName blob r).rating = r.rating ∧
    (legacyStepName blob r).reviews_count = r.reviews_count := by
  unfold legacyStepName
  (repeat' split) <;> exact ⟨rfl, rfl⟩

lemma legacyStepPid_rate (blob : List JValue) (r : InitResult) :
    (legacyStepPid blob r).rating = r.rating ∧
    (legacyStepPid blob r).reviews_count = r.reviews_count := by
  unfold legacyStepPid
  (repeat' split) <;> exact ⟨rfl, rfl⟩

lemma legacyStepCoords_rate (blob : List JValue) (r : InitResult) :
    (legacyStepCoords blob r).rating = r.rating ∧
    (legacyStepCoords blob r).reviews_count = r.reviews_count := by
  unfold legacyStepCoords
  (repeat' split) <;> exact ⟨rfl, rfl⟩

lemma legacyStepSite_rate (blob : List JValue) (r : InitResult) :
    (legacyStepSite blob r).rating = r.rating ∧
    (legacyStepSite blob r).reviews_count = r.reviews_count := by
  unfold legacyStepSite
  (repeat' split) <;> exact ⟨rfl, rfl⟩

lemma legacyStepAddr_rate (blob : List JValue) (r : InitResult) :
    (legacyStepAddr blob r).1.rating = r.rating ∧
    (legacyStepAddr blob r).1.reviews_count = r.reviews_count := by
  unfold legacyStepAddr
  dsimp only
  (repeat' split) <;> exact ⟨rfl, rfl⟩

lemma legacyStepCats_rate (blob : List JValue) (r : InitResult) :
    (legacyStepCats blob r).rating = r.rating ∧
    (legacyStepCats blob r).reviews_count = r.reviews_count := by
  unfold legacyStepCats
  (repeat' split) <;> exact ⟨rfl, rfl⟩

lemma legacyStepRating_ok (l4 : List JValue) (r : InitResult)
    (hr : noneOrTruthy r.rating = true) :
    noneOrTruthy (legacyStepRating l4 r).rating = true ∧
    (legacyStepRating l4 r).reviews_count = r.reviews_count := by
  unfold legacyStepRating
  split
  · split
    case isTrue hv => exact ⟨noneOrTruthy_sdflt _ _ hv hr, rfl⟩
    case isFalse => exact ⟨hr, rfl⟩
  · exact ⟨hr, rfl⟩

lemma legacyStepReviews_ok (l4 : List JValue) (r : InitResult)
    (hc : noneOrTruthy r.reviews_count = true) :
    noneOrTruthy (legacyStepReviews l4 r).reviews_count = true ∧
    (legacyStepReviews l4 r).rating = r.rating := by
  unfold legacyStepReviews
  split
  · split
    case isTrue hv => exact ⟨noneOrTruthy_sdflt _ _ hv hc, rfl⟩
    case isFalse => exact ⟨hc, rfl⟩
  · exact ⟨hc, rfl⟩

lemma legacyStepRate_ok (blob : List JValue) (r : InitResult)
    (hr : noneOrTruthy r.rating = true) (hc : noneOrTruthy r.reviews_count = true) :
    noneOrTruthy (legacyStepRate blob r).rating = true ∧
    noneOrTruthy (legacyStepRate blob r).reviews_count = true := by
  unfold legacyStepRate
  split
  case _ l4 heq =>
    have h1 := legacyStepRating_ok l4 r hr
    have h2 := legacyStepReviews_ok l4 (legacyStepRating l4 r) (by rw [h1.2]; exact hc)
    exact ⟨by rw [h2.2]; exact h1.1, h2.1⟩
  case _ => exact ⟨hr, hc⟩

lemma extractLegacyBlob_ok (blob : List JValue) (r : InitResult)
    (hr : noneOrTruthy r.rating = true) (hc : noneOrTruthy r.reviews_count = true) :
    noneOrTruthy (extractLegacyBlob blob r).rating = true ∧
    noneOrTruthy (extractLegacyBlob blob r).reviews_count = true := by
  unfold extractLegacyBlob
  dsimp only
  set r1 := legacyStepName blob r with hd1
  set r2 := legacyStepPid blob r1 with hd2
  set r3 := legacyStepCoords blob r2 with hd3
  set r4 := legacyStepRate blob r3 with hd4
  set r5 := legacyStepSite blob r4 with hd5
  have h1r : noneOrTruthy r1.rating = true := by
    rw [hd1, (legacyStepName_rate blob r).1]; exact hr
  have h1c : noneOrTruthy r1.reviews_count = true := by
    rw [hd1, (legacyStepName_rate blob r).2]; exact hc
  have h2r : noneOrTruthy r2.rating = true := by
    rw [hd2, (legacyStepPid_rate blob r1).1]; exact h1r
  have h2c : noneOrTruthy r2.reviews_count = true := by
    rw [hd2, (legacyStepPid_rate blob r1).2]; exact h1c
  have h3r : noneOrTruthy r3.rating = true := by
    rw [hd3, (legacyStepCoords_rate blob r2).1]; exact h2r
  have h3c : noneOrTruthy r3.reviews_count = true := by
    rw [hd3, (legacyStepCoords_rate blob r2).2]; exact h2c
  have h4 : noneOrTruthy r4.rating = true ∧ noneOrTruthy r4.reviews_count = true := by
    rw [hd4]; exact legacyStepRate_ok blob r3 h3r h3c
  have h5r : noneOrTruthy r5.rating = true := by
    rw [hd5, (legacyStepSite_rate blob r4).1]; exact h4.1
  have h5c : noneOrTruthy r5.reviews_count = true := by
    rw [hd5, (legacyStepSite_rate blob r4).2]; exact h4.2
  have hAr := (legacyStepAddr_rate blob r5).1
  have hAc := (legacyStepAddr_rate blob r5).2
  rcases hAB : legacyStepAddr blob r5 with ⟨r', b⟩
  rw [hAB] at hAr hAc
  cases b
  · exact ⟨by rw [hAr]; exact h5r, by rw [hAc]; exact h5c⟩
  · refine ⟨?_, ?_⟩
    · rw [(legacyStepCats_rate blob r').1, hAr]; exact h5r
    · rw [(legacyStepCats_rate blob r').2, hAc]; exact h5c

lemma tryParseLegacyString_ok (s : String) (r : InitResult)
    (hr : noneOrTruthy r.rating = true) (hc : noneOrTruthy r.reviews_count = true) :
    noneOrTruthy (tryParseLegacyString s r).rating = true ∧
    noneOrTruthy (tryParseLegacyString s r).reviews_count = true := by
  unfold tryParseLegacyString
  dsimp only
  split
  · split
    · split
      · exact extractLegacyBlob_ok _ r hr hc
      · exact ⟨hr, hc⟩
    · exact ⟨hr, hc⟩
  · exact ⟨hr, hc⟩

lemma schemaA_rate (v : JValue) (r : InitResult) :
    (schemaA v r).rating = r.rating ∧ (schemaA v r).reviews_count = r.reviews_count := by
  unfold schemaA
  (repeat' split) <;> exact ⟨rfl, rfl⟩

lemma legacyPart_ok (v : JValue) (r : InitResult)
    (hr : noneOrTruthy r.rating = true) (hc : noneOrTruthy r.reviews_count = true) :
    noneOrTruthy (legacyPart v r).rating = true ∧
    noneOrTruthy (legacyPart v r).reviews_count = true := by
  unfold legacyPart
  (repeat' split) <;>
    first
      | exact extractLegacyBlob_ok _ r hr hc
      | exact tryParseLegacyString_ok _ r hr hc
      | exact ⟨hr, hc⟩

lemma extractFromAppInitState_ok (html : String) :
    noneOrTruthy (extractFromAppInitState html).rating = true ∧
    noneOrTruthy (extractFromAppInitState html).reviews_count = true := by
  unfold extractFromAppInitState
  split
  · exact ⟨rfl, rfl⟩
  · dsimp only
    split
    · split
      · exact ⟨rfl, rfl⟩
      · rename_i v heq
        have hs := schemaA_rate v emptyInit
        have hr1 : noneOrTruthy (schemaA v emptyInit).rating = true := by
          rw [hs.1]; rfl
        have hc1 : noneOrTruthy (schemaA v emptyInit).reviews_count = true := by
          rw [hs.2]; rfl
        split
        · exact legacyPart_ok v (schemaA v emptyInit) hr1 hc1
        · exact ⟨hr1, hc1⟩
    · exact ⟨rfl, rfl⟩

lemma merged_num_ne_zero (v iniF : Option JValue)
    (hok : noneOrTruthy iniF = true) :
    (if jTruthyO v then v else iniF) ≠ some (JValue.num 0) := by
  split
  case isTrue hT =>
    intro hcontra
    rw [hcontra] at hT
    simp [jTruthyO, jTruthy] at hT
  case isFalse =>
    intro hcontra
    rw [hcontra] at hok
    simp [noneOrTruthy, jTruthy] at hok

lemma keepTruthy_truthy (o : Option JValue) (v : JValue)
    (h : keepTruthy o = some v) : jTruthy v = true := by
  unfold keepTruthy at h
  split at h
  case isTrue hT => rw [h] at hT; simpa [jTruthyO] using hT
  case isFalse => exact absurd h (by simp)

/-- C10 (amended): the final build step keeps `rating`/`reviews_count`
through an `is not None` check (the last two conjuncts: no truthiness
filter is applied there), but the preceding fallback replaces a falsy
rendered value — including 0.0 / 0 — with the structured value or `None`,
and the structured slots only ever hold truthy values; hence a zero rating
or reviews count never reaches an emitted record, and every string/list
field of an emitted record is truthy. -/
theorem C10_numeric_vs_string_emptiness (h : String) (pd : PlaceDetails)
    (hpd : extractPlaceData (some h) = some pd) :
    pd.rating ≠ some (JValue.num 0)
  ∧ pd.reviews_count ≠ some (JValue.num 0)
  ∧ (∀ v, pd.name = some v → jTruthy v = true)
  ∧ (∀ v, pd.address = some v → jTruthy v = true)
  ∧ (∀ v, pd.website = some v → jTruthy v = true)
  ∧ (∀ v, pd.phone = some v → jTruthy v = true)
  ∧ (∀ v, pd.categories = some v → jTruthy v = true)
  ∧ (∀ (r : Rendered) (ini : InitResult),
      (extractPlaceDataFields r ini).rating =
        (if jTruthyO (Option.map JValue.num r.rating) then Option.map JValue.num r.rating
         else ini.rating))
  ∧ (∀ (r : Rendered) (ini : InitResult),
      (extractPlaceDataFields r ini).reviews_count =
        (if jTruthyO (Option.map (fun i => JValue.num (i : Rat)) r.reviews_count)
         then Option.map (fun i => JValue.num (i : Rat)) r.reviews_count
         else ini.reviews_count)) := by
  have hpd' : pd = extractPlaceDataFields (renderedOf h) (extractFromAppInitState h) := by
    simp only [extractPlaceData] at hpd
    split at hpd
    · exact absurd hpd (by simp)
    · split at hpd
      · exact (Option.some.inj hpd).symm
      · exact absurd hpd (by simp)
  subst hpd'
  refine ⟨?_, ?_, ?_, ?_, ?_, ?_, ?_, fun r ini => rfl, fun r ini => rfl⟩
  · exact merged_num_ne_zero _ _ (extractFromAppInitState_ok h).1
  · exact merged_num_ne_zero _ _ (extractFromAppInitState_ok h).2
  · exact fun v hv => keepTruthy_truthy _ v hv
  · exact fun v hv => keepTruthy_truthy _ v hv
  · exact fun v hv => keepTruthy_truthy _ v hv
  · exact fun v hv => keepTruthy_truthy _ v hv
  · exact fun v hv => keepTruthy_truthy _ v hv

/-- C10 counterexample: a page whose only extractable value is a rendered
rating of 0.0 yields **no** record at all — the claimed
"a rating of 0.0 is included and such a page still yields a record" fails
at this input. -/
theorem C10_zero_rating_counterexample :
    extractRating ("class=\"fontDisplayMedium\">0.0</div>") = some 0
  ∧ extractPlaceData (some ("class=\"fontDisplayMedium\">0.0</div>")) = none :=
  ⟨by rfl, by rfl⟩

theorem C10_numeric_vs_string_emptiness_witness :
    (extractPlaceDataFields (renderedOf ("<h1>Cafe</h1>"))
      (extractFromAppInitState ("<h1>Cafe</h1>"))).rating ≠ some (JValue.num 0) :=
  (C10_numeric_vs_string_emptiness ("<h1>Cafe</h1>")
    (extractPlaceDataFields (renderedOf ("<h1>Cafe</h1>"))
      (extractFromAppInitState ("<h1>Cafe</h1>"))) (by rfl)).1

/-! Section: scroll-loop lemmas for C5 and C6. -/

lemma scrollLoop_cap (m : Nat) (obs : List ScrollObs) :
    ∀ (links : List String) (lastHeight : Int) (attempts : Nat), links.length < m →
    (scrollLoop (some m) obs links lastHeight attempts).1.length ≤ m ∧
    ((scrollLoop (some m) obs links lastHeight attempts).2 = ExitReason.maxReached →
      (scrollLoop (some m) obs links lastHeight attempts).1.length = m) := by
  induction obs with
  | nil =>
    intro links lastHeight attempts hlt
    exact ⟨Nat.le_of_lt hlt, fun hcontra => absurd hcontra (by simp [scrollLoop])⟩
  | cons o rest ih =>
    intro links lastHeight attempts hlt
    simp only [scrollLoop]
    split
    case isTrue hcap =>
      have hm : m ≤ (addLinks links o.hrefs).1.length := by
        simpa using hcap
      have hlen : ((addLinks links o.hrefs).1.take ((some m).getD 0)).length = m := by
        simp [List.length_take, Nat.min_eq_left hm]
      exact ⟨Nat.le_of_eq hlen, fun _ => hlen⟩
    case isFalse hcap =>
      have hlt' : (addLinks links o.hrefs).1.length < m := by
        simp only [decide_eq_true_eq] at hcap
        omega
      split
      · split
        · exact ⟨Nat.le_of_lt hlt', fun hcontra => ExitReason.noConfusion hcontra⟩
        · split
          · split
            · exact ⟨Nat.le_of_lt hlt', fun hcontra => ExitReason.noConfusion hcontra⟩
            · exact ih _ _ _ hlt'
          · exact ih _ _ _ hlt'
      · exact ih _ _ _ hlt'

/-- C5: with a supplied (positive) `maxLinks` bound, the link set handed to
the per-item loop never exceeds the bound — on the scroll path the cap
truncates to exactly `maxLinks` whenever it fires, and the single-result
short-circuit contributes one link. (`maxLinks = 0` is classed by the spec
with "unset"; see C6 for its actual behaviour.) -/
theorem C5_maxlinks_bound (feedVisible urlIsPlacePage : Bool) (pageUrl : String)
    (m : Nat) (initialHeight : Int) (obs : List ScrollObs) (links : List String)
    (hm : 1 ≤ m)
    (hcol : collectLinks feedVisible urlIsPlacePage pageUrl (some m) initialHeight obs =
      some links) :
    links.length ≤ m
  ∧ ((scrollLoop (some m) obs [] initialHeight 0).2 = ExitReason.maxReached →
      (scrollLoop (some m) obs [] initialHeight 0).1.length = m) := by
  have hloop := scrollLoop_cap m obs [] initialHeight 0 (by simpa using hm)
  refine ⟨?_, hloop.2⟩
  unfold collectLinks at hcol
  split at hcol
  · obtain rfl := Option.some.inj hcol
    exact hloop.1
  · split at hcol
    · obtain rfl := Option.some.inj hcol
      simpa using hm
    · exact absurd hcol (by simp)

theorem C5_maxlinks_bound_witness :
    collectLinks true false ("u") (some 1) 0 [⟨["a", "b"], 1, false⟩] = some ["a"]
  ∧ (["a"] : List String).length ≤ 1
  ∧ ((scrollLoop (some 1) [⟨["a", "b"], 1, false⟩] [] 0 0).2 = ExitReason.maxReached →
      (scrollLoop (some 1) [⟨["a", "b"], 1, false⟩] [] 0 0).1.length = 1) :=
  ⟨by rfl,
   (C5_maxlinks_bound true false ("u") 1 0 [⟨["a", "b"], 1, false⟩] ["a"]
     (by omega) (by rfl)).1,
   (C5_maxlinks_bound true false ("u") 1 0 [⟨["a", "b"], 1, false⟩] ["a"]
     (by omega) (by rfl)).2⟩

/-- C6 counterexample: with `max_places = 0` the cap check
`len(place_links) >= max_places` is true on the very first iteration, so
the loop terminates via the link-count cap even though the end marker is
not visible and the scroll height grew (progress) — contradicting the
claim that with `maxLinks = 0` the loop never halts via the cap. -/
theorem C6_zero_maxlinks_counterexample :
    (scrollLoop (some 0) [⟨["a"], 5, false⟩] [] 0 0).2 = ExitReason.maxReached
  ∧ (scrollLoop (some 0) [⟨["a"], 5, false⟩] [] 0 0).1 = [] :=
  ⟨rfl, rfl⟩

/-- C6 (amended): when `maxLinks` is **unset** (`None`) the loop never
terminates via the link-count cap: an end-of-list exit requires the end
marker to have been visible in some consumed iteration, and a no-progress
exit requires the no-progress streak to reach 15 consecutive iterations
(so at least `15 - attempts` further iterations must have occurred). When
`maxLinks = 0` the cap fires immediately (see the counterexample). -/
theorem C6_unset_maxlinks_halting :
    (∀ (obs : List ScrollObs) (links : List String) (lastHeight : Int) (attempts : Nat),
      (scrollLoop none obs links lastHeight attempts).2 ≠ ExitReason.maxReached)
  ∧ (∀ (obs : List ScrollObs) (links : List String) (lastHeight : Int) (attempts : Nat),
      (scrollLoop none obs links lastHeight attempts).2 = ExitReason.endOfList →
      ∃ o ∈ obs, o.endMarker = true)
  ∧ (∀ (obs : List ScrollObs) (links : List String) (lastHeight : Int) (attempts : Nat),
      (scrollLoop none obs links lastHeight attempts).2 = ExitReason.noNewLinks →
      maxScrollAttemptsWithoutNewLinks ≤ attempts + obs.length) := by
  refine ⟨?_, ?_, ?_⟩
  · intro obs
    induction obs with
    | nil => intro links lastHeight attempts hcontra; simp [scrollLoop] at hcontra
    | cons o rest ih =>
      intro links lastHeight attempts
      simp only [scrollLoop, Bool.false_eq_true, if_false]
      split
      · split
        · exact fun hcontra => ExitReason.noConfusion hcontra
        · split
          · split
            · exact fun hcontra => ExitReason.noConfusion hcontra
            · exact ih _ _ _
          · exact ih _ _ _
      · exact ih _ _ _
  · intro obs
    induction obs with
    | nil => intro links lastHeight attempts hcontra; simp [scrollLoop] at hcontra
    | cons o rest ih =>
      intro links lastHeight attempts hend
      simp only [scrollLoop, Bool.false_eq_true, if_false] at hend
      split at hend
      case isTrue hheight =>
        split at hend
        case isTrue hmark =>
          exact ⟨o, List.mem_cons_self o rest, hmark⟩
        case isFalse hmark =>
          split at hend
          · split at hend
            · exact absurd hend (fun hcontra => ExitReason.noConfusion hcontra)
            · obtain ⟨o', ho', hm'⟩ := ih _ _ _ hend
              exact ⟨o', List.mem_cons_of_mem o ho', hm'⟩
          · obtain ⟨o', ho', hm'⟩ := ih _ _ _ hend
            exact ⟨o', List.mem_cons_of_mem o ho', hm'⟩
      case isFalse hheight =>
        obtain ⟨o', ho', hm'⟩ := ih _ _ _ hend
        exact ⟨o', List.mem_cons_of_mem o ho', hm'⟩
  · intro obs
    induction obs with
    | nil => intro links lastHeight attempts hcontra; simp [scrollLoop] at hcontra
    | cons o rest ih =>
      intro links lastHeight attempts hexit
      simp only [scrollLoop, Bool.false_eq_true, if_false] at hexit
      simp only [List.length_cons]
      split at hexit
      · split at hexit
        · exact absurd hexit (fun hcontra => ExitReason.noConfusion hcontra)
        · split at hexit
          · split at hexit
            case isTrue hge =>
              omega
            case isFalse =>
              have := ih _ _ _ hexit
              omega
          · have := ih _ _ _ hexit
            omega
      · have := ih _ _ _ hexit
        omega

theorem C6_unset_maxlinks_halting_witness :
    (∃ o ∈ ([⟨[], 0, true⟩] : List ScrollObs), o.endMarker = true)
  ∧ maxScrollAttemptsWithoutNewLinks ≤
      0 + (List.replicate 15 (⟨[], 0, false⟩ : ScrollObs)).length
  ∧ (scrollLoop none [⟨["a"], 5, false⟩] [] 0 0).2 ≠ ExitReason.maxReached :=
  ⟨C6_unset_maxlinks_halting.2.1 [⟨[], 0, true⟩] [] 0 0 (by rfl),
   C6_unset_maxlinks_halting.2.2 (List.replicate 15 (⟨[], 0, false⟩ : ScrollObs)) [] 0 0 (by rfl),
   C6_unset_maxlinks_halting.1 [⟨["a"], 5, false⟩] [] 0 0⟩

end GMapsScraper
